import Mathlib

/-!
# Sound sink of the myosd OSD layer (`src/osd/myosd/sound.cpp`)

A shallow embedding of `my_osd_interface`'s sound entry points.

* The mutable members touched by `sound.cpp` are bundled in the structure
  `my_osd_interface`: the three sound callbacks of `m_callbacks`, `m_sample_rate`,
  `m_current_stream_id` and `m_next_stream_id`.
* `uint32_t` values are natural numbers; the only arithmetic on them, the
  post-increment of `m_next_stream_id`, is reduced modulo `2^32`.
* `int` values are integers; the byte length handed to `sound_play` goes through
  `size_t` and back to `int`, which is modelled with explicit reductions.
* Function pointers are `Option Fn` (`none` is `NULL`).  A call through a pointer is
  recorded as a `Call` in the outcome of the member function, in program order; a
  call through a `NULL` pointer is a fault, and the member function then yields `none`.
* `osd_printf_verbose` only logs and is left out.
-/

namespace MyOsd

/-! ## Data model -/

/-- Data pointers are addresses; `NULL` is address `0`. -/
abbrev Ptr := Nat

/-- The null data pointer. -/
def NULL : Ptr := 0

/-- The width of `uint32_t`. -/
def UINT32_MOD : Nat := 2 ^ 32

/-- Functions a sound callback pointer can point to: the three static no-op defaults of
`sound.cpp`, or a function of the host (told apart by a tag). -/
inductive Fn where
  | myosd_sound_init
  | myosd_sound_play
  | myosd_sound_exit
  | host (k : Nat)
  deriving DecidableEq, Repr

/-- The sound members of `m_callbacks`; `none` is a `NULL` function pointer. -/
structure Callbacks where
  sound_init : Option Fn
  sound_play : Option Fn
  sound_exit : Option Fn
  deriving DecidableEq, Repr

/-- One call made through a callback pointer, with the arguments passed. -/
inductive Call where
  | init (f : Fn) (rate : Int) (stereo : Int)
  | play (f : Fn) (buff : Ptr) (len : Int)
  | exit (f : Fn)
  deriving DecidableEq, Repr

/-- The members of `my_osd_interface` that `sound.cpp` reads or writes. -/
structure my_osd_interface where
  m_callbacks : Callbacks
  m_sample_rate : Int
  m_current_stream_id : Nat
  m_next_stream_id : Nat
  deriving DecidableEq, Repr

/-- What `sound_init` reads from `options()`: `sample_rate()` and `value(OPTION_SOUND)`. -/
structure Options where
  sample_rate : Int
  sound : String
  deriving DecidableEq, Repr

/-- The two speaker positions `sound.cpp` uses, `osd::channel_position::FL()` and
`osd::channel_position::FR()`. -/
inductive channel_position where
  | FL
  | FR
  deriving DecidableEq, Repr

/-- The rate range of a node (`m_rate`). -/
structure audio_rate_range where
  m_default_rate : Nat
  m_min_rate : Nat
  m_max_rate : Nat
  deriving DecidableEq, Repr

/-- The members of `osd::audio_info::node_info` that `sound_get_information` fills in. -/
structure node_info where
  m_name : String
  m_display_name : String
  m_id : Nat
  m_rate : audio_rate_range
  m_sinks : Nat
  m_sources : Nat
  m_port_names : List String
  m_port_positions : List channel_position
  deriving DecidableEq, Repr

/-- The members of `osd::audio_info::stream_info` that `sound_get_information` fills in. -/
structure stream_info where
  m_id : Nat
  m_node : Nat
  deriving DecidableEq, Repr

/-- The report `osd::audio_info`. -/
structure audio_info where
  m_generation : Nat
  m_default_sink : Nat
  m_default_source : Nat
  m_nodes : List node_info
  m_streams : List stream_info
  deriving DecidableEq, Repr

/-- What a member function leaves behind: the object afterwards, the callback calls it
made (in order) and its return value. -/
structure Outcome (α : Type) where
  state : my_osd_interface
  calls : List Call
  ret : α
  deriving DecidableEq, Repr

/-! ## Member functions -/

/-- The callback triple after lines 29-34 of `sound_init`: the defaults replace all
three members when `sound_play` is `NULL`. -/
def install_defaults (cb : Callbacks) : Callbacks :=
  if cb.sound_play = none then
    { sound_init := some Fn.myosd_sound_init
      sound_play := some Fn.myosd_sound_play
      sound_exit := some Fn.myosd_sound_exit }
  else cb

/-- The value `sound_init` stores in `m_sample_rate` (lines 36-39). -/
def effective_rate (opts : Options) : Int :=
  if opts.sound = "none" then 0 else opts.sample_rate

/-- Embeds `my_osd_interface::sound_init`. -/
def sound_init (opts : Options) (s : my_osd_interface) : Option (Outcome Unit) :=
  let cb := install_defaults s.m_callbacks
  let rate := effective_rate opts
  let s1 : my_osd_interface :=
    { m_callbacks := cb, m_sample_rate := rate,
      m_current_stream_id := 0, m_next_stream_id := 1 }
  if rate ≠ 0 then
    match cb.sound_init with
    | none => none
    | some f => some { state := s1, calls := [Call.init f rate 1], ret := () }
  else
    some { state := s1, calls := [], ret := () }

/-- Embeds `my_osd_interface::sound_exit`. -/
def sound_exit (s : my_osd_interface) : Option (Outcome Unit) :=
  if s.m_sample_rate ≠ 0 then
    match s.m_callbacks.sound_exit with
    | none => none
    | some f =>
      some { state := { s with m_current_stream_id := 0 }, calls := [Call.exit f], ret := () }
  else
    some { state := { s with m_current_stream_id := 0 }, calls := [], ret := () }

/-- The single node every report carries (lines 70-84). -/
def the_node : node_info :=
  { m_name := "myosdsound"
    m_display_name := "myosd sound"
    m_id := 1
    m_rate := { m_default_rate := 0, m_min_rate := 0, m_max_rate := 0 }
    m_sinks := 2
    m_sources := 0
    m_port_names := [] ++ ["L"] ++ ["R"]
    m_port_positions := [] ++ [channel_position.FL] ++ [channel_position.FR] }

/-- Embeds `my_osd_interface::sound_get_information`. -/
def sound_get_information (s : my_osd_interface) : Outcome audio_info :=
  let result : audio_info :=
    { m_generation := 1
      m_default_sink := 1
      m_default_source := 0
      m_nodes := [the_node]
      m_streams := [] }
  let result : audio_info :=
    if s.m_current_stream_id ≠ 0 then
      { result with m_streams := [{ m_id := s.m_current_stream_id, m_node := 1 }] }
    else result
  { state := s, calls := [], ret := result }

/-- Embeds `my_osd_interface::no_sound`. -/
def no_sound (s : my_osd_interface) : Outcome Bool :=
  { state := s, calls := [], ret := decide (s.m_sample_rate = 0) }

set_option linter.unusedVariables false in
/-- Embeds `my_osd_interface::sound_stream_sink_open`; `node`, `name` and `rate` are
not read by the body. -/
def sound_stream_sink_open (node : Nat) (name : String) (rate : Nat)
    (s : my_osd_interface) : Outcome Nat :=
  if s.m_current_stream_id ≠ 0 then
    { state := s, calls := [], ret := 0 }
  else
    let s1 : my_osd_interface :=
      { s with m_current_stream_id := s.m_next_stream_id,
               m_next_stream_id := (s.m_next_stream_id + 1) % UINT32_MOD }
    { state := s1, calls := [], ret := s1.m_current_stream_id }

/-- Embeds `my_osd_interface::sound_stream_close`. -/
def sound_stream_close (id : Nat) (s : my_osd_interface) : Outcome Unit :=
  if id = s.m_current_stream_id then
    { state := { s with m_current_stream_id := 0 }, calls := [], ret := () }
  else
    { state := s, calls := [], ret := () }

/-- Conversion of an `int` to an unsigned type of `w` bits. -/
def to_unsigned (w : Nat) (x : Int) : Nat := (x % (2 ^ w : Int)).toNat

/-- Conversion of an unsigned value to `int` (32 bits, two's complement): the value is
kept when it fits and reduced modulo `2^32` otherwise, as the compilers the project
builds with do. -/
def to_int (x : Nat) : Int :=
  if x % 2 ^ 32 < 2 ^ 31 then ((x % 2 ^ 32 : Nat) : Int) else ((x % 2 ^ 32 : Nat) : Int) - 2 ^ 32

/-- The second argument of `sound_play` (line 128):
`samples_this_frame * sizeof(int16_t) * 2`, computed in `size_t` of `w` bits and
converted to the `int` parameter `len`. -/
def play_len (w : Nat) (samples_this_frame : Int) : Int :=
  to_int (((to_unsigned w samples_this_frame * 2) % 2 ^ w * 2) % 2 ^ w)

/-- The width of `size_t` on the LP64 targets; `play_len_width` shows that a 32-bit
`size_t` gives the same lengths. -/
def SIZE_BITS : Nat := 64

/-- Embeds `my_osd_interface::sound_stream_sink_update`. -/
def sound_stream_sink_update (id : Nat) (buffer : Ptr) (samples_this_frame : Int)
    (s : my_osd_interface) : Outcome Unit :=
  if s.m_sample_rate = 0 ∨ s.m_callbacks.sound_play = none ∨ buffer = NULL
      ∨ id ≠ s.m_current_stream_id then
    { state := s, calls := [], ret := () }
  else
    match s.m_callbacks.sound_play with
    | none => { state := s, calls := [], ret := () }
    | some f =>
      { state := s, calls := [Call.play f buffer (play_len SIZE_BITS samples_this_frame)],
        ret := () }

/-! ## Sequences of calls -/

/-- One call of a member function, with its arguments. -/
inductive Op where
  | sound_init (opts : Options)
  | sound_exit
  | sound_get_information
  | no_sound
  | sound_stream_sink_open (node : Nat) (name : String) (rate : Nat)
  | sound_stream_close (id : Nat)
  | sound_stream_sink_update (id : Nat) (buffer : Ptr) (samples_this_frame : Int)
  deriving DecidableEq, Repr

/-- The value a call returned. -/
inductive Ret where
  | unit
  | handle (h : Nat)
  | info (i : audio_info)
  | bool (b : Bool)
  deriving DecidableEq, Repr

/-- Retags the return value of an outcome. -/
def Outcome.as {α : Type} (o : Outcome α) (f : α → Ret) : Outcome Ret :=
  { state := o.state, calls := o.calls, ret := f o.ret }

/-- Performs one call; `none` when the call faults. -/
def step (op : Op) (s : my_osd_interface) : Option (Outcome Ret) :=
  match op with
  | Op.sound_init opts => (sound_init opts s).map (fun o => o.as (fun _ => Ret.unit))
  | Op.sound_exit => (sound_exit s).map (fun o => o.as (fun _ => Ret.unit))
  | Op.sound_get_information => some ((sound_get_information s).as Ret.info)
  | Op.no_sound => some ((no_sound s).as Ret.bool)
  | Op.sound_stream_sink_open node name rate =>
    some ((sound_stream_sink_open node name rate s).as Ret.handle)
  | Op.sound_stream_close id => some ((sound_stream_close id s).as (fun _ => Ret.unit))
  | Op.sound_stream_sink_update id buffer n =>
    some ((sound_stream_sink_update id buffer n s).as (fun _ => Ret.unit))

/-- Performs the calls of a sequence in order: the final object, all callback calls
made, and the return value of every call; `none` when one of the calls faults. -/
def run : List Op → my_osd_interface → Option (Outcome (List Ret))
  | [], s => some { state := s, calls := [], ret := [] }
  | op :: ops, s =>
    match step op s with
    | none => none
    | some o =>
      match run ops o.state with
      | none => none
      | some r => some { state := r.state, calls := o.calls ++ r.calls, ret := o.ret :: r.ret }

/-- The calls a sequence may contain while stream `h` is to stay open:
`sound_stream_sink_open`, `sound_stream_sink_update`, `sound_get_information`, and
`sound_stream_close x` with `x ≠ h`. -/
def Op.keeps (h : Nat) : Op → Prop
  | Op.sound_stream_sink_open _ _ _ => True
  | Op.sound_stream_sink_update _ _ _ => True
  | Op.sound_get_information => True
  | Op.sound_stream_close x => x ≠ h
  | _ => False

/-- Only `sound_stream_sink_open` and `sound_stream_close` calls. -/
def Op.open_or_close : Op → Prop
  | Op.sound_stream_sink_open _ _ _ => True
  | Op.sound_stream_close _ => True
  | _ => False

/-- Every call but `sound_init`. -/
def Op.not_init : Op → Prop
  | Op.sound_init _ => False
  | _ => True

/-- Calls that are neither `sound_init` nor `no_sound`: `sound_stream_sink_open`,
`sound_stream_close`, `sound_stream_sink_update`, `sound_get_information`, `sound_exit`. -/
def Op.stream_or_exit : Op → Prop
  | Op.sound_init _ => False
  | Op.no_sound => False
  | _ => True

/-- The number of successful opens among returned values (non-zero handles). -/
def successes : List Ret → Nat
  | [] => 0
  | Ret.handle h :: rs => (if h ≠ 0 then 1 else 0) + successes rs
  | _ :: rs => successes rs

/-- The number of `sound_play` calls among callback calls. -/
def play_count : List Call → Nat
  | [] => 0
  | Call.play _ _ _ :: cs => 1 + play_count cs
  | _ :: cs => play_count cs

/-- Opens a stream and closes it again, `n` times over, for a counter that stands at
`a` (modulo `2^32`) before the first open. -/
def open_close_cycles : Nat → Nat → List Op
  | _, 0 => []
  | a, n + 1 =>
    Op.sound_stream_sink_open 1 "myosdsound" 0 :: Op.sound_stream_close (a % UINT32_MOD)
      :: open_close_cycles (a + 1) n

instance Op.keeps_decidable (h : Nat) (op : Op) : Decidable (Op.keeps h op) := by
  cases op <;> unfold Op.keeps <;> infer_instance

instance Op.open_or_close_decidable (op : Op) : Decidable (Op.open_or_close op) := by
  cases op <;> unfold Op.open_or_close <;> infer_instance

instance Op.not_init_decidable (op : Op) : Decidable (Op.not_init op) := by
  cases op <;> unfold Op.not_init <;> infer_instance

instance Op.stream_or_exit_decidable (op : Op) : Decidable (Op.stream_or_exit op) := by
  cases op <;> unfold Op.stream_or_exit <;> infer_instance

/-- An object on which `sound_init` has not run yet and for which the host supplied no
sound callbacks. -/
def fresh : my_osd_interface :=
  { m_callbacks := { sound_init := none, sound_play := none, sound_exit := none }
    m_sample_rate := 0
    m_current_stream_id := 0
    m_next_stream_id := 0 }

/-- An object whose host supplied all three sound callbacks, initialised at 44100 Hz,
with stream 1 open. -/
def playing : my_osd_interface :=
  { m_callbacks :=
      { sound_init := some (Fn.host 0), sound_play := some (Fn.host 1),
        sound_exit := some (Fn.host 2) }
    m_sample_rate := 44100
    m_current_stream_id := 1
    m_next_stream_id := 2 }

/-- The object `fresh` after `sound_init` at 44100 Hz: the no-op callbacks are in
place, no stream is open, the counter stands at 1. -/
def ready : my_osd_interface :=
  { m_callbacks :=
      { sound_init := some Fn.myosd_sound_init, sound_play := some Fn.myosd_sound_play,
        sound_exit := some Fn.myosd_sound_exit }
    m_sample_rate := 44100
    m_current_stream_id := 0
    m_next_stream_id := 1 }

/-- Options asking for 44100 Hz on the default sound module. -/
def opts_44100 : Options := { sample_rate := 44100, sound := "auto" }

/-- The object reached from `ready` when the counter is used up: the stream with the
last handle `2^32 - 1` is open and the 32-bit counter has wrapped to 0. -/
def wrapped : my_osd_interface :=
  { ready with m_current_stream_id := 4294967295, m_next_stream_id := 0 }

/-- An object on which `sound_init` has not run yet and for which the host supplied
all three sound callbacks. -/
def hosted : my_osd_interface :=
  { fresh with
    m_callbacks :=
      { sound_init := some (Fn.host 0), sound_play := some (Fn.host 1),
        sound_exit := some (Fn.host 2) } }

/-- Options that switch sound off by `-sound none`, with a rate of 48000 Hz asked for. -/
def opts_none : Options := { sample_rate := 48000, sound := "none" }

/-- The three static no-op functions of `sound.cpp`, as the triple `sound_init` installs. -/
def noop_callbacks : Callbacks :=
  { sound_init := some Fn.myosd_sound_init
    sound_play := some Fn.myosd_sound_play
    sound_exit := some Fn.myosd_sound_exit }

/-- Whether a function is one of the static no-op defaults of `sound.cpp`. -/
def Fn.is_noop : Fn → Bool
  | Fn.host _ => false
  | _ => true

/-- Whether a callback pointer points to a no-op default. -/
def points_to_noop : Option Fn → Bool
  | some f => f.is_noop
  | none => false

/-- Whether a callback pointer points to a function of the host. -/
def points_to_host : Option Fn → Bool
  | some f => !f.is_noop
  | none => false

/-- The host supplied no sound callback at all. -/
def Callbacks.all_absent (cb : Callbacks) : Prop :=
  cb.sound_init = none ∧ cb.sound_play = none ∧ cb.sound_exit = none

/-- A triple as a host can hand it over: every member is `NULL` or a function of the
host (the no-op defaults are static in `sound.cpp` and not visible to the host). -/
def Callbacks.from_host (cb : Callbacks) : Prop :=
  points_to_noop cb.sound_init = false ∧ points_to_noop cb.sound_play = false
    ∧ points_to_noop cb.sound_exit = false

/-- A triple that holds a no-op default next to a function of the host. -/
def Callbacks.mixed (cb : Callbacks) : Prop :=
  (points_to_noop cb.sound_init = true ∨ points_to_noop cb.sound_play = true
      ∨ points_to_noop cb.sound_exit = true)
    ∧ (points_to_host cb.sound_init = true ∨ points_to_host cb.sound_play = true
      ∨ points_to_host cb.sound_exit = true)

/-- All three sound callbacks are present. -/
def Callbacks.complete (cb : Callbacks) : Prop :=
  cb.sound_init ≠ none ∧ cb.sound_play ≠ none ∧ cb.sound_exit ≠ none

instance Callbacks.all_absent_decidable (cb : Callbacks) : Decidable cb.all_absent := by
  unfold Callbacks.all_absent; infer_instance

instance Callbacks.from_host_decidable (cb : Callbacks) : Decidable cb.from_host := by
  unfold Callbacks.from_host; infer_instance

instance Callbacks.mixed_decidable (cb : Callbacks) : Decidable cb.mixed := by
  unfold Callbacks.mixed; infer_instance

instance Callbacks.complete_decidable (cb : Callbacks) : Decidable cb.complete := by
  unfold Callbacks.complete; infer_instance

/-- An object on which `sound_init` has not run yet and whose host supplied `sound_init`
and `sound_exit` but no `sound_play`. -/
def partial_host : my_osd_interface :=
  { fresh with
    m_callbacks :=
      { sound_init := some (Fn.host 0), sound_play := none, sound_exit := some (Fn.host 2) } }

/-- The non-zero handles among returned values, in the order the opens returned them. -/
def handles : List Ret → List Nat
  | [] => []
  | Ret.handle h :: rs => if h ≠ 0 then h :: handles rs else handles rs
  | _ :: rs => handles rs

/-- Either no stream is open, or the counter stands one past the active handle
(modulo `2^32`). -/
def counters_linked (s : my_osd_interface) : Prop :=
  s.m_current_stream_id = 0
    ∨ s.m_next_stream_id = (s.m_current_stream_id + 1) % UINT32_MOD

instance counters_linked_decidable (s : my_osd_interface) : Decidable (counters_linked s) := by
  unfold counters_linked; infer_instance

/-! ## Basic facts -/

/-- The object `sound_init` leaves behind, when it returns. -/
theorem sound_init_state (opts : Options) (s : my_osd_interface) (o : Outcome Unit)
    (h : sound_init opts s = some o) :
    o.state = { m_callbacks := install_defaults s.m_callbacks,
                m_sample_rate := effective_rate opts,
                m_current_stream_id := 0, m_next_stream_id := 1 } := by
  unfold sound_init at h
  simp only at h
  split at h
  · split at h
    · cases h
    · cases h
      rfl
  · cases h
    rfl

/-- The empty sequence. -/
theorem run_nil (s : my_osd_interface) :
    run [] s = some { state := s, calls := [], ret := [] } := rfl

/-- One call, then the rest of the sequence. -/
theorem run_cons (op : Op) (ops : List Op) (s : my_osd_interface) :
    run (op :: ops) s =
      match step op s with
      | none => none
      | some o =>
        match run ops o.state with
        | none => none
        | some r => some { state := r.state, calls := o.calls ++ r.calls, ret := o.ret :: r.ret } :=
  rfl

/-- A call that returns, followed by a sequence that runs to its end. -/
theorem run_cons_some (op : Op) (ops : List Op) (s : my_osd_interface) (o : Outcome Ret)
    (r : Outcome (List Ret)) (ho : step op s = some o) (hr : run ops o.state = some r) :
    run (op :: ops) s
      = some { state := r.state, calls := o.calls ++ r.calls, ret := o.ret :: r.ret } := by
  rw [run_cons, ho]
  simp only [hr]

/-- A successful open makes the returned handle the active one. -/
theorem open_ret_ne_zero (node : Nat) (name : String) (rate : Nat) (s : my_osd_interface)
    (h : (sound_stream_sink_open node name rate s).ret ≠ 0) :
    (sound_stream_sink_open node name rate s).state.m_current_stream_id
        = (sound_stream_sink_open node name rate s).ret
      ∧ s.m_current_stream_id = 0 := by
  unfold sound_stream_sink_open at h ⊢
  by_cases hc : s.m_current_stream_id = 0
  · simp [hc]
  · simp [hc] at h

/-- While a stream is open, a call that keeps it leaves the object as it is, makes no
fault, and an open among them returns 0. -/
theorem step_keeps (s : my_osd_interface) (hs : s.m_current_stream_id ≠ 0) (op : Op)
    (hop : Op.keeps s.m_current_stream_id op) :
    ∃ o, step op s = some o ∧ o.state = s
      ∧ ∀ n nm rt, op = Op.sound_stream_sink_open n nm rt → o.ret = Ret.handle 0 := by
  cases op with
  | sound_init opts => exact absurd hop (by simp [Op.keeps])
  | sound_exit => exact absurd hop (by simp [Op.keeps])
  | no_sound => exact absurd hop (by simp [Op.keeps])
  | sound_get_information =>
    exact ⟨_, rfl, rfl, by intro n nm rt h; cases h⟩
  | sound_stream_sink_open node name rate =>
    refine ⟨_, rfl, ?_, ?_⟩
    · simp [Outcome.as, sound_stream_sink_open, hs]
    · intro n nm rt _
      simp [Outcome.as, sound_stream_sink_open, hs]
  | sound_stream_close id =>
    have hid : id ≠ s.m_current_stream_id := hop
    refine ⟨_, rfl, ?_, by intro n nm rt h; cases h⟩
    simp [Outcome.as, sound_stream_close, hid]
  | sound_stream_sink_update id buffer n =>
    refine ⟨_, rfl, ?_, by intro n nm rt h; cases h⟩
    simp only [Outcome.as, sound_stream_sink_update]
    split
    · rfl
    · split <;> rfl

/-- The trace form of `step_keeps`. -/
theorem run_keeps (ops : List Op) (s : my_osd_interface) (hs : s.m_current_stream_id ≠ 0)
    (hops : ∀ op ∈ ops, Op.keeps s.m_current_stream_id op) :
    ∃ r, run ops s = some r ∧ r.state = s ∧ r.ret.length = ops.length
      ∧ ∀ p ∈ ops.zip r.ret, ∀ n nm rt,
          p.1 = Op.sound_stream_sink_open n nm rt → p.2 = Ret.handle 0 := by
  induction ops with
  | nil => exact ⟨_, rfl, rfl, rfl, by simp⟩
  | cons op ops ih =>
    obtain ⟨o, ho, hos, hor⟩ := step_keeps s hs op (hops op (List.mem_cons_self _ _))
    obtain ⟨r, hr, hrs, hrl, hrz⟩ := ih (fun x hx => hops x (List.mem_cons_of_mem _ hx))
    refine ⟨{ state := r.state, calls := o.calls ++ r.calls, ret := o.ret :: r.ret }, ?_, hrs, ?_, ?_⟩
    · rw [run_cons, ho]
      simp only [hos, hr]
    · simp [hrl]
    · intro p hp n nm rt hpo
      rw [List.zip_cons_cons, List.mem_cons] at hp
      rcases hp with hp | hp
      · subst hp
        exact hor n nm rt hpo
      · exact hrz p hp n nm rt hpo

/-- Opens and closes never fault and never call back. -/
theorem step_open_or_close (op : Op) (hop : Op.open_or_close op) (s : my_osd_interface) :
    ∃ o, step op s = some o ∧ o.calls = []
      ∧ o.state.m_callbacks = s.m_callbacks ∧ o.state.m_sample_rate = s.m_sample_rate := by
  cases op with
  | sound_init opts => exact absurd hop (by simp [Op.open_or_close])
  | sound_exit => exact absurd hop (by simp [Op.open_or_close])
  | no_sound => exact absurd hop (by simp [Op.open_or_close])
  | sound_get_information => exact absurd hop (by simp [Op.open_or_close])
  | sound_stream_sink_update id buffer n => exact absurd hop (by simp [Op.open_or_close])
  | sound_stream_sink_open node name rate =>
    refine ⟨_, rfl, ?_, ?_, ?_⟩ <;>
      (simp only [Outcome.as, sound_stream_sink_open]; split <;> rfl)
  | sound_stream_close id =>
    refine ⟨_, rfl, ?_, ?_, ?_⟩ <;>
      (simp only [Outcome.as, sound_stream_close]; split <;> rfl)

/-- A sequence of opens and closes runs to its end. -/
theorem run_open_or_close (ops : List Op) :
    ∀ s : my_osd_interface, (∀ op ∈ ops, Op.open_or_close op) →
      ∃ r, run ops s = some r ∧ r.calls = [] := by
  induction ops with
  | nil => intro s _; exact ⟨_, rfl, rfl⟩
  | cons op ops ih =>
    intro s hops
    obtain ⟨o, ho, hoc, _, _⟩ := step_open_or_close op (hops op (List.mem_cons_self _ _)) s
    obtain ⟨r, hr, hrc⟩ := ih o.state (fun x hx => hops x (List.mem_cons_of_mem _ hx))
    refine ⟨{ state := r.state, calls := o.calls ++ r.calls, ret := o.ret :: r.ret }, ?_, ?_⟩
    · rw [run_cons, ho]
      simp only [hr]
    · simp [hoc, hrc]

/-- As long as the counter does not wrap, it stands at its start value plus the number
of successful opens, and every handle returned is 0 or lies between the two. -/
theorem run_handles (ops : List Op) :
    ∀ (s : my_osd_interface) (a : Nat) (r : Outcome (List Ret)),
      (∀ op ∈ ops, Op.open_or_close op) → run ops s = some r →
      s.m_next_stream_id = a → 1 ≤ a → a + successes r.ret < 2 ^ 32 →
      r.state.m_next_stream_id = a + successes r.ret
        ∧ ∀ h, Ret.handle h ∈ r.ret → h = 0 ∨ (a ≤ h ∧ h < a + successes r.ret) := by
  induction ops with
  | nil =>
    intro s a r _ hr ha _ _
    rw [run_nil] at hr
    cases hr
    simp [successes, ha]
  | cons op ops ih =>
    intro s a r hops hr ha h1 hb
    have hop := hops op (List.mem_cons_self _ _)
    have hrest : ∀ x ∈ ops, Op.open_or_close x := fun x hx => hops x (List.mem_cons_of_mem _ hx)
    rw [run_cons] at hr
    cases op with
    | sound_init opts => exact absurd hop (by simp [Op.open_or_close])
    | sound_exit => exact absurd hop (by simp [Op.open_or_close])
    | no_sound => exact absurd hop (by simp [Op.open_or_close])
    | sound_get_information => exact absurd hop (by simp [Op.open_or_close])
    | sound_stream_sink_update id buffer n => exact absurd hop (by simp [Op.open_or_close])
    | sound_stream_close id =>
      simp only [step] at hr
      cases hrun : run ops ((sound_stream_close id s).as (fun _ => Ret.unit)).state with
      | none => simp [hrun] at hr
      | some r1 =>
        simp only [hrun, Option.some.injEq] at hr
        subst hr
        have hn : ((sound_stream_close id s).as (fun _ => Ret.unit)).state.m_next_stream_id = a := by
          simp only [Outcome.as, sound_stream_close]
          split <;> exact ha
        have hb1 : a + successes r1.ret < 2 ^ 32 := by
          simpa [Outcome.as, successes] using hb
        obtain ⟨e1, e2⟩ := ih _ a r1 hrest hrun hn h1 hb1
        refine ⟨by simpa [Outcome.as, successes] using e1, ?_⟩
        intro h hh
        simp only [Outcome.as, List.mem_cons] at hh
        rcases hh with hh | hh
        · cases hh
        · simpa [Outcome.as, successes] using e2 h hh
    | sound_stream_sink_open node name rate =>
      simp only [step] at hr
      cases hrun : run ops ((sound_stream_sink_open node name rate s).as Ret.handle).state with
      | none => simp [hrun] at hr
      | some r1 =>
        simp only [hrun, Option.some.injEq] at hr
        subst hr
        by_cases hc : s.m_current_stream_id = 0
        · have hret : ((sound_stream_sink_open node name rate s).as Ret.handle).ret
              = Ret.handle a := by
            simp [Outcome.as, sound_stream_sink_open, hc, ha]
          have hsucc : successes (Ret.handle a :: r1.ret) = 1 + successes r1.ret := by
            have : a ≠ 0 := by omega
            simp [successes, this]
          simp only [hret, hsucc] at hb ⊢
          have hn : ((sound_stream_sink_open node name rate s).as Ret.handle).state.m_next_stream_id
              = a + 1 := by
            simp only [Outcome.as, sound_stream_sink_open, hc, ha, UINT32_MOD]
            simp only [ne_eq, not_true_eq_false, if_false]
            exact Nat.mod_eq_of_lt (by omega)
          obtain ⟨e1, e2⟩ := ih _ (a + 1) r1 hrest hrun hn (by omega) (by omega)
          refine ⟨by omega, ?_⟩
          intro h hh
          simp only [List.mem_cons] at hh
          rcases hh with hh | hh
          · cases hh
            right
            omega
          · rcases e2 h hh with e | e
            · exact Or.inl e
            · right
              omega
        · have hret : ((sound_stream_sink_open node name rate s).as Ret.handle).ret
              = Ret.handle 0 := by
            simp [Outcome.as, sound_stream_sink_open, hc]
          have hsucc : successes (Ret.handle 0 :: r1.ret) = successes r1.ret := by
            simp [successes]
          simp only [hret, hsucc] at hb ⊢
          have hn : ((sound_stream_sink_open node name rate s).as Ret.handle).state.m_next_stream_id
              = a := by
            simp [Outcome.as, sound_stream_sink_open, hc, ha]
          obtain ⟨e1, e2⟩ := ih _ a r1 hrest hrun hn h1 hb
          refine ⟨e1, ?_⟩
          intro h hh
          simp only [List.mem_cons] at hh
          rcases hh with hh | hh
          · cases hh
            exact Or.inl rfl
          · exact e2 h hh

/-- The cycles contain opens and closes only. -/
theorem open_close_cycles_ops (n : Nat) :
    ∀ a, ∀ op ∈ open_close_cycles a n, Op.open_or_close op := by
  induction n with
  | zero => intro a op hop; simp [open_close_cycles] at hop
  | succ n ih =>
    intro a op hop
    simp only [open_close_cycles, List.mem_cons] at hop
    rcases hop with rfl | rfl | hop
    · trivial
    · trivial
    · exact ih (a + 1) op hop

/-- Running `n` open/close cycles with no stream open advances the counter by `n`
modulo `2^32` and changes nothing else. -/
theorem run_open_close_cycles (n : Nat) :
    ∀ (a : Nat) (s : my_osd_interface), s.m_current_stream_id = 0 →
      s.m_next_stream_id = a % UINT32_MOD →
      ∃ r, run (open_close_cycles a n) s = some r
        ∧ r.state = { s with m_next_stream_id := (a + n) % UINT32_MOD } := by
  induction n with
  | zero =>
    intro a s hc hn
    refine ⟨_, rfl, ?_⟩
    cases s
    simp_all
  | succ n ih =>
    intro a s hc hn
    have hstep : (sound_stream_close (a % UINT32_MOD)
        (sound_stream_sink_open 1 "myosdsound" 0 s).state).state
          = { s with m_next_stream_id := (a + 1) % UINT32_MOD } := by
      cases s
      simp_all [sound_stream_close, sound_stream_sink_open]
    obtain ⟨r, hr, hrs⟩ := ih (a + 1) { s with m_next_stream_id := (a + 1) % UINT32_MOD } hc rfl
    rw [← hstep] at hr
    have h2 := run_cons_some (Op.sound_stream_close (a % UINT32_MOD))
      (open_close_cycles (a + 1) n) (sound_stream_sink_open 1 "myosdsound" 0 s).state
      ((sound_stream_close (a % UINT32_MOD)
        (sound_stream_sink_open 1 "myosdsound" 0 s).state).as (fun _ => Ret.unit)) r rfl hr
    have h1 := run_cons_some (Op.sound_stream_sink_open 1 "myosdsound" 0) _ s
      ((sound_stream_sink_open 1 "myosdsound" 0 s).as Ret.handle) _ rfl h2
    refine ⟨_, h1, ?_⟩
    show r.state = _
    rw [hrs]
    simp [Nat.add_assoc, Nat.add_comm 1 n]

/-- Running one sequence after another. -/
theorem run_append (ops1 : List Op) :
    ∀ (ops2 : List Op) (s : my_osd_interface) (r1 r2 : Outcome (List Ret)),
      run ops1 s = some r1 → run ops2 r1.state = some r2 →
      run (ops1 ++ ops2) s
        = some { state := r2.state, calls := r1.calls ++ r2.calls, ret := r1.ret ++ r2.ret } := by
  induction ops1 with
  | nil =>
    intro ops2 s r1 r2 h1 h2
    rw [run_nil] at h1
    cases h1
    simpa using h2
  | cons op ops1 ih =>
    intro ops2 s r1 r2 h1 h2
    rw [run_cons] at h1
    cases hstep : step op s with
    | none => simp [hstep] at h1
    | some o =>
      cases hrun : run ops1 o.state with
      | none => simp [hstep, hrun] at h1
      | some r =>
        simp only [hstep, hrun, Option.some.injEq] at h1
        subst h1
        have := ih ops2 o.state r r2 hrun h2
        rw [List.cons_append, run_cons_some op _ s o _ hstep this]
        simp

/-- The object `wrapped` is reached from `fresh` by `sound_init`, `2^32 - 2` open/close
cycles and one more open. -/
theorem wrapped_reachable :
    ∃ r, run (Op.sound_init opts_44100 ::
               (open_close_cycles 1 4294967294 ++ [Op.sound_stream_sink_open 1 "myosdsound" 0]))
             fresh = some r
      ∧ r.state = wrapped := by
  have hinit : step (Op.sound_init opts_44100) fresh
      = some { state := ready, calls := [Call.init Fn.myosd_sound_init 44100 1],
               ret := Ret.unit } := by decide
  obtain ⟨r, hr, hrs⟩ := run_open_close_cycles 4294967294 1 ready rfl (by decide)
  have hlast : run [Op.sound_stream_sink_open 1 "myosdsound" 0] r.state
      = some { state := wrapped, calls := [], ret := [Ret.handle 4294967295] } := by
    rw [hrs]
    decide
  exact ⟨_, run_cons_some _ _ _ _ _ hinit (run_append _ _ _ _ _ hr hlast), rfl⟩

/-- The length handed to `sound_play` is in `int` range and congruent to four times the
frame count modulo `2^32`. -/
theorem play_len_spec (n : Int) :
    -2147483648 ≤ play_len SIZE_BITS n ∧ play_len SIZE_BITS n < 2147483648
      ∧ (play_len SIZE_BITS n - n * 2 * 2) % 4294967296 = 0 := by
  unfold play_len to_int to_unsigned SIZE_BITS
  norm_num
  split <;> omega

/-- A 32-bit `size_t` gives the same lengths as a 64-bit one. -/
theorem play_len_width (n : Int) : play_len 32 n = play_len SIZE_BITS n := by
  unfold play_len to_int to_unsigned SIZE_BITS
  norm_num
  split <;> split <;> omega

/-- The two ways out of `sound_stream_sink_update`. -/
theorem sound_stream_sink_update_cases (id : Nat) (buffer : Ptr) (n : Int)
    (s : my_osd_interface) :
    (sound_stream_sink_update id buffer n s).state = s
      ∧ (((s.m_sample_rate = 0 ∨ s.m_callbacks.sound_play = none ∨ buffer = NULL
              ∨ id ≠ s.m_current_stream_id)
            ∧ (sound_stream_sink_update id buffer n s).calls = [])
          ∨ (s.m_sample_rate ≠ 0 ∧ buffer ≠ NULL ∧ id = s.m_current_stream_id
            ∧ ∃ f, s.m_callbacks.sound_play = some f
              ∧ (sound_stream_sink_update id buffer n s).calls
                  = [Call.play f buffer (play_len SIZE_BITS n)])) := by
  unfold sound_stream_sink_update
  split
  · rename_i h
    exact ⟨rfl, Or.inl ⟨h, rfl⟩⟩
  · rename_i h
    simp only [not_or, not_not] at h
    obtain ⟨h1, h2, h3, h4⟩ := h
    cases hp : s.m_callbacks.sound_play with
    | none => exact absurd hp h2
    | some f => exact ⟨rfl, Or.inr ⟨h1, h3, h4, f, rfl, rfl⟩⟩

/-- The stream calls and `sound_exit` are not `sound_init`. -/
theorem stream_or_exit_not_init (op : Op) (h : Op.stream_or_exit op) : Op.not_init op := by
  cases op <;> trivial

/-- The stored rate is 0 exactly for `-sound none` or a configured rate of 0. -/
theorem effective_rate_eq_zero (opts : Options) :
    effective_rate opts = 0 ↔ (opts.sound = "none" ∨ opts.sample_rate = 0) := by
  unfold effective_rate
  by_cases h : opts.sound = "none" <;> simp [h]

/-- The only fault of `sound_init` is a call through a `NULL` `sound_init` pointer. -/
theorem sound_init_returns (opts : Options) (s : my_osd_interface)
    (h : effective_rate opts = 0 ∨ (install_defaults s.m_callbacks).sound_init ≠ none) :
    ∃ o, sound_init opts s = some o := by
  unfold sound_init
  simp only
  split
  · rename_i hr
    cases hcb : (install_defaults s.m_callbacks).sound_init with
    | none =>
      rcases h with h | h
      · exact absurd h hr
      · exact absurd hcb h
    | some f => exact ⟨_, rfl⟩
  · exact ⟨_, rfl⟩

/-- Every call but `sound_init` keeps the rate and the callbacks, calls nothing back when
the rate is 0, and can fault only in `sound_exit`, through a `NULL` `sound_exit` pointer
at a non-zero rate. -/
theorem step_not_init (op : Op) (hop : Op.not_init op) (s : my_osd_interface) :
    (∀ o, step op s = some o →
        o.state.m_sample_rate = s.m_sample_rate ∧ o.state.m_callbacks = s.m_callbacks
          ∧ (s.m_sample_rate = 0 → o.calls = []))
      ∧ ((s.m_sample_rate = 0 ∨ s.m_callbacks.sound_exit ≠ none) → ∃ o, step op s = some o) := by
  cases op with
  | sound_init opts => exact absurd hop (by simp [Op.not_init])
  | sound_exit =>
    simp only [step, sound_exit]
    by_cases hr : s.m_sample_rate = 0
    · simp [hr, Outcome.as]
    · cases hcb : s.m_callbacks.sound_exit with
      | none => simp [hr]
      | some f => simp [hr, Outcome.as]
  | sound_get_information =>
    refine ⟨?_, fun _ => ⟨_, rfl⟩⟩
    intro o ho
    cases ho
    exact ⟨rfl, rfl, fun _ => rfl⟩
  | no_sound =>
    refine ⟨?_, fun _ => ⟨_, rfl⟩⟩
    intro o ho
    cases ho
    exact ⟨rfl, rfl, fun _ => rfl⟩
  | sound_stream_sink_open node name rate =>
    refine ⟨?_, fun _ => ⟨_, rfl⟩⟩
    intro o ho
    cases ho
    simp only [Outcome.as, sound_stream_sink_open]
    split <;> exact ⟨rfl, rfl, fun _ => rfl⟩
  | sound_stream_close id =>
    refine ⟨?_, fun _ => ⟨_, rfl⟩⟩
    intro o ho
    cases ho
    simp only [Outcome.as, sound_stream_close]
    split <;> exact ⟨rfl, rfl, fun _ => rfl⟩
  | sound_stream_sink_update id buffer n =>
    refine ⟨?_, fun _ => ⟨_, rfl⟩⟩
    intro o ho
    cases ho
    obtain ⟨hs, h | h⟩ := sound_stream_sink_update_cases id buffer n s
    · exact ⟨by simp [Outcome.as, hs], by simp [Outcome.as, hs], fun _ => h.2⟩
    · exact ⟨by simp [Outcome.as, hs], by simp [Outcome.as, hs], fun h0 => absurd h0 h.1⟩

/-- The trace form of `step_not_init`. -/
theorem run_not_init (ops : List Op) :
    ∀ s : my_osd_interface, (∀ op ∈ ops, Op.not_init op) →
      (∀ r, run ops s = some r →
          r.state.m_sample_rate = s.m_sample_rate ∧ r.state.m_callbacks = s.m_callbacks
            ∧ (s.m_sample_rate = 0 → r.calls = []))
        ∧ ((s.m_sample_rate = 0 ∨ s.m_callbacks.sound_exit ≠ none) →
            ∃ r, run ops s = some r) := by
  induction ops with
  | nil =>
    intro s _
    refine ⟨?_, fun _ => ⟨_, rfl⟩⟩
    intro r hr
    rw [run_nil] at hr
    cases hr
    exact ⟨rfl, rfl, fun _ => rfl⟩
  | cons op ops ih =>
    intro s hops
    obtain ⟨hkeep, hret⟩ := step_not_init op (hops op (List.mem_cons_self _ _)) s
    have hrest : ∀ x ∈ ops, Op.not_init x := fun x hx => hops x (List.mem_cons_of_mem _ hx)
    refine ⟨?_, ?_⟩
    · intro r hr
      rw [run_cons] at hr
      cases hstep : step op s with
      | none => simp [hstep] at hr
      | some o =>
        cases hrun : run ops o.state with
        | none => simp [hstep, hrun] at hr
        | some r1 =>
          simp only [hstep, hrun, Option.some.injEq] at hr
          subst hr
          obtain ⟨k1, k2, k3⟩ := hkeep o hstep
          obtain ⟨j1, j2, j3⟩ := (ih o.state hrest).1 r1 hrun
          refine ⟨by rw [j1, k1], by rw [j2, k2], ?_⟩
          intro h0
          simp [k3 h0, j3 (by rw [k1]; exact h0)]
    · intro hok
      obtain ⟨o, ho⟩ := hret hok
      obtain ⟨k1, k2, _⟩ := hkeep o ho
      obtain ⟨r, hr⟩ := (ih o.state hrest).2 (by rw [k1, k2]; exact hok)
      exact ⟨_, run_cons_some op ops s o r ho hr⟩

/-- A sequence that runs to its end splits into its first call and the rest. -/
theorem run_cons_inv (op : Op) (ops : List Op) (s : my_osd_interface)
    (r : Outcome (List Ret)) (h : run (op :: ops) s = some r) :
    ∃ o r1, step op s = some o ∧ run ops o.state = some r1
      ∧ r = { state := r1.state, calls := o.calls ++ r1.calls, ret := o.ret :: r1.ret } := by
  rw [run_cons] at h
  cases hstep : step op s with
  | none => simp [hstep] at h
  | some o =>
    cases hrun : run ops o.state with
    | none => simp [hstep, hrun] at h
    | some r1 =>
      simp only [hstep, hrun, Option.some.injEq] at h
      exact ⟨o, r1, rfl, hrun, h.symm⟩

/-- What a call other than `sound_init` does to the two stream members: either it is an
open with no stream active, which hands out the counter value and advances the
counter, or it keeps the counter, returns no non-zero handle, and keeps or clears the
active handle. -/
theorem step_counter (op : Op) (hop : Op.not_init op) (s : my_osd_interface)
    (o : Outcome Ret) (h : step op s = some o) :
    (s.m_current_stream_id = 0 ∧ o.ret = Ret.handle s.m_next_stream_id
        ∧ o.state.m_next_stream_id = (s.m_next_stream_id + 1) % UINT32_MOD
        ∧ o.state.m_current_stream_id = s.m_next_stream_id)
      ∨ (o.state.m_next_stream_id = s.m_next_stream_id
          ∧ (o.ret = Ret.handle 0 ∨ ∀ x, o.ret ≠ Ret.handle x)
          ∧ (o.state.m_current_stream_id = s.m_current_stream_id
              ∨ o.state.m_current_stream_id = 0)) := by
  cases op with
  | sound_init opts => exact absurd hop (by simp [Op.not_init])
  | sound_exit =>
    right
    simp only [step, sound_exit] at h
    by_cases hr : s.m_sample_rate = 0
    · simp only [hr, ne_eq, not_true_eq_false, if_false, Option.map_some',
        Option.some.injEq] at h
      subst h
      exact ⟨rfl, Or.inr (fun x hx => by cases hx), Or.inr rfl⟩
    · cases hcb : s.m_callbacks.sound_exit with
      | none => simp [hr, hcb] at h
      | some f =>
        simp only [hr, hcb, ne_eq, not_false_eq_true, if_true, Option.map_some',
          Option.some.injEq] at h
        subst h
        exact ⟨rfl, Or.inr (fun x hx => by cases hx), Or.inr rfl⟩
  | sound_get_information =>
    cases h
    exact Or.inr ⟨rfl, Or.inr (fun x hx => by cases hx), Or.inl rfl⟩
  | no_sound =>
    cases h
    exact Or.inr ⟨rfl, Or.inr (fun x hx => by cases hx), Or.inl rfl⟩
  | sound_stream_sink_open node name rate =>
    cases h
    by_cases hc : s.m_current_stream_id = 0
    · left
      simp [Outcome.as, sound_stream_sink_open, hc]
    · right
      simp [Outcome.as, sound_stream_sink_open, hc]
  | sound_stream_close id =>
    cases h
    right
    refine ⟨?_, Or.inr (fun x hx => by cases hx), ?_⟩
    · simp only [Outcome.as, sound_stream_close]
      split <;> rfl
    · simp only [Outcome.as, sound_stream_close]
      split
      · exact Or.inr rfl
      · exact Or.inl rfl
  | sound_stream_sink_update id buffer n =>
    cases h
    have hs := (sound_stream_sink_update_cases id buffer n s).1
    exact Or.inr ⟨by simp [Outcome.as, hs], Or.inr (fun x hx => by cases hx),
      Or.inl (by simp [Outcome.as, hs])⟩

/-- There are as many non-zero handles as successful opens. -/
theorem handles_length (rs : List Ret) : (handles rs).length = successes rs := by
  induction rs with
  | nil => rfl
  | cons x rs ih =>
    cases x with
    | handle h =>
      by_cases hh : h = 0
      · simp [handles, successes, hh, ih]
      · simp [handles, successes, hh, ih, Nat.add_comm]
    | unit => simpa [handles, successes] using ih
    | info i => simpa [handles, successes] using ih
    | bool b => simpa [handles, successes] using ih

/-- A returned value that is no non-zero handle does not count. -/
theorem handles_cons_skip (x : Ret) (rs : List Ret)
    (hx : x = Ret.handle 0 ∨ ∀ h, x ≠ Ret.handle h) :
    handles (x :: rs) = handles rs ∧ successes (x :: rs) = successes rs := by
  rcases hx with hx | hx
  · subst hx
    simp [handles, successes]
  · cases x with
    | handle h => exact absurd rfl (hx h)
    | unit => exact ⟨rfl, rfl⟩
    | info i => exact ⟨rfl, rfl⟩
    | bool b => exact ⟨rfl, rfl⟩

/-- As long as the counter does not pass `2^32`, the non-zero handles handed out from a
counter value `a ≥ 1` on are `a, a + 1, a + 2, ...`, one per successful open. -/
theorem run_handles_range (ops : List Op) :
    ∀ (s : my_osd_interface) (a : Nat) (r : Outcome (List Ret)),
      (∀ op ∈ ops, Op.not_init op) → run ops s = some r →
      s.m_next_stream_id = a → 1 ≤ a → a + successes r.ret ≤ 2 ^ 32 →
      handles r.ret = List.range' a (successes r.ret) := by
  induction ops with
  | nil =>
    intro s a r _ hr _ _ _
    rw [run_nil] at hr
    cases hr
    simp [handles, successes]
  | cons op ops ih =>
    intro s a r hops hr ha h1 hb
    obtain ⟨o, r1, ho, hr1, rfl⟩ := run_cons_inv op ops s r hr
    have hrest : ∀ x ∈ ops, Op.not_init x := fun x hx => hops x (List.mem_cons_of_mem _ hx)
    rcases step_counter op (hops op (List.mem_cons_self _ _)) s o ho with hc | hc
    · obtain ⟨_, hret, hnext, _⟩ := hc
      rw [ha] at hret hnext
      have ha0 : a ≠ 0 := by omega
      have hsucc : successes (o.ret :: r1.ret) = successes r1.ret + 1 := by
        rw [hret]
        simp [successes, ha0, Nat.add_comm]
      have hhand : handles (o.ret :: r1.ret) = a :: handles r1.ret := by
        rw [hret]
        simp [handles, ha0]
      simp only at hb ⊢
      rw [hsucc] at hb
      rw [hsucc, hhand, List.range'_succ]
      congr 1
      by_cases hlt : a + 1 < 2 ^ 32
      · have hn : o.state.m_next_stream_id = a + 1 := by
          rw [hnext]
          exact Nat.mod_eq_of_lt hlt
        exact ih o.state (a + 1) r1 hrest hr1 hn (by omega) (by omega)
      · have hk : successes r1.ret = 0 := by omega
        have hl := handles_length r1.ret
        rw [hk] at hl
        rw [hk, List.length_eq_zero.1 hl]
        rfl
    · obtain ⟨hnext, hret, _⟩ := hc
      obtain ⟨e1, e2⟩ := handles_cons_skip o.ret r1.ret hret
      simp only at hb ⊢
      rw [e2] at hb
      rw [e1, e2]
      exact ih o.state a r1 hrest hr1 (by rw [hnext, ha]) h1 hb

/-- The link between the two stream members survives every sequence without
`sound_init`. -/
theorem run_counters_linked (ops : List Op) :
    ∀ (s : my_osd_interface) (r : Outcome (List Ret)),
      (∀ op ∈ ops, Op.not_init op) → run ops s = some r →
      counters_linked s → counters_linked r.state := by
  induction ops with
  | nil =>
    intro s r _ hr hs
    rw [run_nil] at hr
    cases hr
    exact hs
  | cons op ops ih =>
    intro s r hops hr hs
    obtain ⟨o, r1, ho, hr1, rfl⟩ := run_cons_inv op ops s r hr
    refine ih o.state r1 (fun x hx => hops x (List.mem_cons_of_mem _ hx)) hr1 ?_
    rcases step_counter op (hops op (List.mem_cons_self _ _)) s o ho with hc | hc
    · obtain ⟨_, _, hnext, hcur⟩ := hc
      right
      rw [hnext, hcur]
    · obtain ⟨hnext, _, hcur | hcur⟩ := hc
      · rcases hs with hs | hs
        · left
          rw [hcur, hs]
        · right
          rw [hnext, hcur, hs]
      · exact Or.inl hcur

/-- No call takes the `sound_play` callback away. -/
theorem step_play_present (op : Op) (s : my_osd_interface) (o : Outcome Ret)
    (h : step op s = some o) (hp : s.m_callbacks.sound_play ≠ none) :
    o.state.m_callbacks.sound_play ≠ none := by
  cases op with
  | sound_init opts =>
    simp only [step, Option.map_eq_some'] at h
    obtain ⟨o1, ho1, rfl⟩ := h
    have hs := sound_init_state opts s o1 ho1
    simp only [Outcome.as, hs, install_defaults, hp, if_false]
    exact hp
  | sound_exit =>
    rw [(step_not_init Op.sound_exit trivial s).1 o h |>.2.1]
    exact hp
  | sound_get_information =>
    rw [(step_not_init Op.sound_get_information trivial s).1 o h |>.2.1]
    exact hp
  | no_sound =>
    rw [(step_not_init Op.no_sound trivial s).1 o h |>.2.1]
    exact hp
  | sound_stream_sink_open node name rate =>
    rw [(step_not_init (Op.sound_stream_sink_open node name rate) trivial s).1 o h |>.2.1]
    exact hp
  | sound_stream_close id =>
    rw [(step_not_init (Op.sound_stream_close id) trivial s).1 o h |>.2.1]
    exact hp
  | sound_stream_sink_update id buffer n =>
    rw [(step_not_init (Op.sound_stream_sink_update id buffer n) trivial s).1 o h |>.2.1]
    exact hp

/-- The trace form of `step_play_present`. -/
theorem run_play_present (ops : List Op) :
    ∀ (s : my_osd_interface) (r : Outcome (List Ret)), run ops s = some r →
      s.m_callbacks.sound_play ≠ none → r.state.m_callbacks.sound_play ≠ none := by
  induction ops with
  | nil =>
    intro s r hr hp
    rw [run_nil] at hr
    cases hr
    exact hp
  | cons op ops ih =>
    intro s r hr hp
    obtain ⟨o, r1, ho, hr1, rfl⟩ := run_cons_inv op ops s r hr
    exact ih o.state r1 hr1 (step_play_present op s o ho hp)

/-- With all three callbacks present every call returns and keeps them present. -/
theorem step_complete (op : Op) (s : my_osd_interface) (hc : s.m_callbacks.complete) :
    ∃ o, step op s = some o ∧ o.state.m_callbacks.complete := by
  obtain ⟨h1, h2, h3⟩ := hc
  cases op with
  | sound_init opts =>
    have hi : install_defaults s.m_callbacks = s.m_callbacks := by
      simp [install_defaults, h2]
    obtain ⟨o1, ho1⟩ := sound_init_returns opts s (Or.inr (by rw [hi]; exact h1))
    refine ⟨o1.as (fun _ => Ret.unit), by simp [step, ho1], ?_⟩
    have hs := sound_init_state opts s o1 ho1
    simp only [Outcome.as, hs, hi]
    exact ⟨h1, h2, h3⟩
  | sound_exit =>
    obtain ⟨o, ho⟩ := (step_not_init Op.sound_exit trivial s).2 (Or.inr h3)
    exact ⟨o, ho, by rw [((step_not_init Op.sound_exit trivial s).1 o ho).2.1]; exact ⟨h1, h2, h3⟩⟩
  | sound_get_information =>
    exact ⟨_, rfl, by
      rw [((step_not_init Op.sound_get_information trivial s).1 _ rfl).2.1]
      exact ⟨h1, h2, h3⟩⟩
  | no_sound =>
    exact ⟨_, rfl, by
      rw [((step_not_init Op.no_sound trivial s).1 _ rfl).2.1]
      exact ⟨h1, h2, h3⟩⟩
  | sound_stream_sink_open node name rate =>
    exact ⟨_, rfl, by
      rw [((step_not_init (Op.sound_stream_sink_open node name rate) trivial s).1 _ rfl).2.1]
      exact ⟨h1, h2, h3⟩⟩
  | sound_stream_close id =>
    exact ⟨_, rfl, by
      rw [((step_not_init (Op.sound_stream_close id) trivial s).1 _ rfl).2.1]
      exact ⟨h1, h2, h3⟩⟩
  | sound_stream_sink_update id buffer n =>
    exact ⟨_, rfl, by
      rw [((step_not_init (Op.sound_stream_sink_update id buffer n) trivial s).1 _ rfl).2.1]
      exact ⟨h1, h2, h3⟩⟩

/-- With all three callbacks present every sequence, `sound_init` calls included, runs
to its end. -/
theorem run_complete (ops : List Op) :
    ∀ s : my_osd_interface, s.m_callbacks.complete → ∃ r, run ops s = some r := by
  induction ops with
  | nil => intro s _; exact ⟨_, rfl⟩
  | cons op ops ih =>
    intro s hc
    obtain ⟨o, ho, hoc⟩ := step_complete op s hc
    obtain ⟨r, hr⟩ := ih o.state hoc
    exact ⟨_, run_cons_some op ops s o r ho hr⟩

/-! ## Claims -/

/-- C1. Exclusivity over traces: once `sound_stream_sink_open` has returned a non-zero
handle `h`, every following sequence made only of `sound_stream_sink_open`,
`sound_stream_sink_update`, `sound_get_information` and `sound_stream_close x` calls
with `x ≠ h` runs without fault, every `sound_stream_sink_open` in it returns 0, and
the active handle is still `h` at the end. -/
theorem C1_exclusivity (node : Nat) (name : String) (rate : Nat) (s : my_osd_interface)
    (h : (sound_stream_sink_open node name rate s).ret ≠ 0) (ops : List Op)
    (hops : ∀ op ∈ ops, Op.keeps (sound_stream_sink_open node name rate s).ret op) :
    ∃ r, run ops (sound_stream_sink_open node name rate s).state = some r
      ∧ r.state.m_current_stream_id = (sound_stream_sink_open node name rate s).ret
      ∧ r.ret.length = ops.length
      ∧ ∀ p ∈ ops.zip r.ret, ∀ n nm rt,
          p.1 = Op.sound_stream_sink_open n nm rt → p.2 = Ret.handle 0 := by
  have hcur := (open_ret_ne_zero node name rate s h).1
  obtain ⟨r, hr, hrs, hrl, hrz⟩ :=
    run_keeps ops (sound_stream_sink_open node name rate s).state (by rw [hcur]; exact h)
      (by rw [hcur]; exact hops)
  exact ⟨r, hr, by rw [hrs, hcur], hrl, hrz⟩

/-- Witness of C1: after `sound_init` at 44100 Hz the first open returns 1; a second
open, an update, a query and a close of handle 7 follow. -/
theorem C1_exclusivity_witness :
    (sound_stream_sink_open 1 "myosdsound" 0 ready).ret ≠ 0
      ∧ ∃ r, run [Op.sound_stream_sink_open 1 "myosdsound" 48000,
                  Op.sound_stream_sink_update 1 4096 256,
                  Op.sound_get_information,
                  Op.sound_stream_close 7]
                (sound_stream_sink_open 1 "myosdsound" 0 ready).state = some r
          ∧ r.state.m_current_stream_id = (sound_stream_sink_open 1 "myosdsound" 0 ready).ret
          ∧ r.ret.length = 4
          ∧ ∀ p ∈ [Op.sound_stream_sink_open 1 "myosdsound" 48000,
                   Op.sound_stream_sink_update 1 4096 256,
                   Op.sound_get_information,
                   Op.sound_stream_close 7].zip r.ret, ∀ n nm rt,
              p.1 = Op.sound_stream_sink_open n nm rt → p.2 = Ret.handle 0 :=
  ⟨by decide, C1_exclusivity 1 "myosdsound" 0 ready (by decide) _ (by decide)⟩

/-- C2, as stated, fails: after `sound_init` and `2^32 - 1` open/close cycles no stream
is active, the 32-bit counter has wrapped to 0, and the next open returns 0. -/
theorem C2_counterexample :
    ∃ r, run (Op.sound_init opts_44100 :: open_close_cycles 1 4294967295) fresh = some r
      ∧ (∀ op ∈ open_close_cycles 1 4294967295, Op.open_or_close op)
      ∧ r.state.m_current_stream_id = 0
      ∧ (sound_stream_sink_open 1 "myosdsound" 0 r.state).ret = 0 := by
  have hinit : step (Op.sound_init opts_44100) fresh
      = some { state := ready, calls := [Call.init Fn.myosd_sound_init 44100 1],
               ret := Ret.unit } := by decide
  obtain ⟨r, hr, hrs⟩ := run_open_close_cycles 4294967295 1 ready rfl (by decide)
  refine ⟨_, run_cons_some _ _ _ _ _ hinit hr, open_close_cycles_ops _ _, ?_, ?_⟩
  · show r.state.m_current_stream_id = 0
    rw [hrs]
    rfl
  · show (sound_stream_sink_open 1 "myosdsound" 0 r.state).ret = 0
    rw [hrs]
    decide

/-- C2, amended. After `sound_init`, for every sequence of `sound_stream_sink_open` and
`sound_stream_close` calls in which fewer than `2^32 - 1` opens have succeeded: the
sequence runs to its end, and a `sound_stream_sink_open` made next while no stream is
active returns a non-zero 32-bit handle that is strictly greater than every handle
returned before. -/
theorem C2_handles_increase (opts : Options) (s0 : my_osd_interface) (o1 : Outcome Unit)
    (hinit : sound_init opts s0 = some o1) (ops : List Op)
    (hops : ∀ op ∈ ops, Op.open_or_close op) :
    ∃ r, run ops o1.state = some r
      ∧ (successes r.ret < 2 ^ 32 - 1 → r.state.m_current_stream_id = 0 →
          ∀ (node : Nat) (name : String) (rate : Nat),
            0 < (sound_stream_sink_open node name rate r.state).ret
              ∧ (sound_stream_sink_open node name rate r.state).ret < 2 ^ 32
              ∧ ∀ h, Ret.handle h ∈ r.ret →
                  h < (sound_stream_sink_open node name rate r.state).ret) := by
  obtain ⟨r, hr, _⟩ := run_open_or_close ops o1.state hops
  refine ⟨r, hr, ?_⟩
  intro hk hc node name rate
  have hn : o1.state.m_next_stream_id = 1 := by
    rw [sound_init_state opts s0 o1 hinit]
  obtain ⟨e1, e2⟩ := run_handles ops o1.state 1 r hops hr hn (le_refl 1) (by omega)
  have hret : (sound_stream_sink_open node name rate r.state).ret = 1 + successes r.ret := by
    simp [sound_stream_sink_open, hc, e1]
  rw [hret]
  refine ⟨by omega, by omega, ?_⟩
  intro h hh
  rcases e2 h hh with e | e <;> omega

/-- Witness of C2 (amended): `sound_init` at 44100 Hz, then open (returns 1) and
close 1. One open has succeeded, no stream is active, and the open made next returns a
handle between 1 and `2^32 - 1` that is greater than the handle 1 returned before. -/
theorem C2_handles_increase_witness :
    sound_init opts_44100 fresh
        = some { state := ready, calls := [Call.init Fn.myosd_sound_init 44100 1], ret := () }
      ∧ (∀ op ∈ [Op.sound_stream_sink_open 1 "myosdsound" 0, Op.sound_stream_close 1],
          Op.open_or_close op)
      ∧ ∃ r, run [Op.sound_stream_sink_open 1 "myosdsound" 0, Op.sound_stream_close 1] ready
              = some r
          ∧ r.ret = [Ret.handle 1, Ret.unit]
          ∧ successes r.ret < 2 ^ 32 - 1
          ∧ r.state.m_current_stream_id = 0
          ∧ ∀ (node : Nat) (name : String) (rate : Nat),
              0 < (sound_stream_sink_open node name rate r.state).ret
                ∧ (sound_stream_sink_open node name rate r.state).ret < 2 ^ 32
                ∧ ∀ h, Ret.handle h ∈ r.ret →
                    h < (sound_stream_sink_open node name rate r.state).ret := by
  obtain ⟨r, hr, h⟩ := C2_handles_increase opts_44100 fresh
    { state := ready, calls := [Call.init Fn.myosd_sound_init 44100 1], ret := () }
    (by decide) [Op.sound_stream_sink_open 1 "myosdsound" 0, Op.sound_stream_close 1]
    (by decide)
  have hr0 : run [Op.sound_stream_sink_open 1 "myosdsound" 0, Op.sound_stream_close 1] ready
      = some { state := { ready with m_next_stream_id := 2 }, calls := [],
               ret := [Ret.handle 1, Ret.unit] } := by decide
  have hr1 : run [Op.sound_stream_sink_open 1 "myosdsound" 0, Op.sound_stream_close 1] ready
      = some r := hr
  have hrr : r = { state := { ready with m_next_stream_id := 2 }, calls := [],
                   ret := [Ret.handle 1, Ret.unit] } := by
    rw [hr0] at hr1
    exact (Option.some.inj hr1).symm
  have hk : successes r.ret < 2 ^ 32 - 1 := by
    rw [hrr]
    decide
  have hc : r.state.m_current_stream_id = 0 := by
    rw [hrr]
    rfl
  exact ⟨by decide, by decide, r, hr1, by rw [hrr], hk, hc, h hk hc⟩

/-- C3. Routing correctness: in every state and for every `(id, buffer,
samples_this_frame)`, `sound_stream_sink_update` calls `sound_play` exactly once if the
sample rate is non-zero, the `sound_play` callback is present, `buffer` is non-null and
`id` is the active stream id, and zero times in every other case; it makes no other
callback call and leaves the object unchanged. -/
theorem C3_routing (id : Nat) (buffer : Ptr) (samples_this_frame : Int)
    (s : my_osd_interface) :
    play_count (sound_stream_sink_update id buffer samples_this_frame s).calls
        = (if s.m_sample_rate ≠ 0 ∧ s.m_callbacks.sound_play ≠ none ∧ buffer ≠ NULL
              ∧ id = s.m_current_stream_id then 1 else 0)
      ∧ (sound_stream_sink_update id buffer samples_this_frame s).calls.length
          = play_count (sound_stream_sink_update id buffer samples_this_frame s).calls
      ∧ (sound_stream_sink_update id buffer samples_this_frame s).state = s := by
  obtain ⟨hs, h | h⟩ := sound_stream_sink_update_cases id buffer samples_this_frame s
  · obtain ⟨hg, hc⟩ := h
    have hn : ¬ (s.m_sample_rate ≠ 0 ∧ s.m_callbacks.sound_play ≠ none ∧ buffer ≠ NULL
        ∧ id = s.m_current_stream_id) := by
      rintro ⟨a, b, c, d⟩
      rcases hg with g | g | g | g
      · exact a g
      · exact b g
      · exact c g
      · exact g d
    rw [hc, if_neg hn]
    exact ⟨rfl, rfl, hs⟩
  · obtain ⟨a, c, d, f, hf, hc⟩ := h
    have hy : s.m_sample_rate ≠ 0 ∧ s.m_callbacks.sound_play ≠ none ∧ buffer ≠ NULL
        ∧ id = s.m_current_stream_id := ⟨a, by simp [hf], c, d⟩
    rw [hc, if_pos hy]
    exact ⟨rfl, rfl, hs⟩

/-- C4, as stated, fails: for `samples_this_frame = 2^29` the buffer is forwarded with
length `-2^31`, not `2^29 * 2 * 2 = 2^31`. -/
theorem C4_counterexample :
    (sound_stream_sink_update 1 4096 536870912 playing).calls
        = [Call.play (Fn.host 1) 4096 (-2147483648)]
      ∧ (-2147483648 : Int) ≠ 536870912 * 2 * 2 := by
  decide

/-- C4, amended. Whenever `sound_stream_sink_update` forwards a buffer, the `sound_play`
callback receives that same buffer and an `int` length congruent to
`samples_this_frame * 2 * 2` modulo `2^32`; the length equals
`samples_this_frame * 2 * 2` whenever `-2^29 ≤ samples_this_frame < 2^29`, and for
`samples_this_frame = 256` it is 1024. -/
theorem C4_forwarded_length (id : Nat) (buffer : Ptr) (samples_this_frame : Int)
    (s : my_osd_interface)
    (hfwd : (sound_stream_sink_update id buffer samples_this_frame s).calls ≠ []) :
    ∃ f len, s.m_callbacks.sound_play = some f
      ∧ (sound_stream_sink_update id buffer samples_this_frame s).calls
          = [Call.play f buffer len]
      ∧ -2147483648 ≤ len ∧ len < 2147483648
      ∧ (len - samples_this_frame * 2 * 2) % 4294967296 = 0
      ∧ (-536870912 ≤ samples_this_frame → samples_this_frame < 536870912 →
          len = samples_this_frame * 2 * 2)
      ∧ (samples_this_frame = 256 → len = 1024) := by
  obtain ⟨_, h | h⟩ := sound_stream_sink_update_cases id buffer samples_this_frame s
  · exact absurd h.2 hfwd
  · obtain ⟨_, _, _, f, hf, hc⟩ := h
    obtain ⟨l1, l2, l3⟩ := play_len_spec samples_this_frame
    refine ⟨f, play_len SIZE_BITS samples_this_frame, hf, hc, l1, l2, l3, ?_, ?_⟩
    · intro a b
      omega
    · intro a
      omega

/-- Witness of C4 (amended): 256 frames pushed to the open stream 1. -/
theorem C4_forwarded_length_witness :
    (sound_stream_sink_update 1 4096 256 playing).calls ≠ []
      ∧ ∃ f len, playing.m_callbacks.sound_play = some f
          ∧ (sound_stream_sink_update 1 4096 256 playing).calls = [Call.play f 4096 len]
          ∧ -2147483648 ≤ len ∧ len < 2147483648
          ∧ (len - 256 * 2 * 2) % 4294967296 = 0
          ∧ (-536870912 ≤ (256 : Int) → (256 : Int) < 536870912 → len = 256 * 2 * 2)
          ∧ ((256 : Int) = 256 → len = 1024) :=
  ⟨by decide, C4_forwarded_length 1 4096 256 playing (by decide)⟩

/-- C5, as stated, fails: in the object `wrapped` (stream `2^32 - 1` open, counter
wrapped to 0) closing the active stream sets the active handle to 0, but the open that
follows returns 0 and no stream becomes active. -/
theorem C5_counterexample :
    (sound_stream_close 4294967295 wrapped).state.m_current_stream_id = 0
      ∧ (sound_stream_sink_open 1 "myosdsound" 0
          (sound_stream_close 4294967295 wrapped).state).ret = 0
      ∧ (sound_stream_sink_open 1 "myosdsound" 0
          (sound_stream_close 4294967295 wrapped).state).state.m_current_stream_id = 0 := by
  decide

/-- C5, amended. In every state with active handle `a` and for every `id`:
`sound_stream_close id` with `id ≠ a` leaves the object (active handle and counter
included) unchanged; `sound_stream_close a` sets the active handle to 0 and keeps the
counter; and, when the counter is non-zero, the `sound_stream_sink_open` that follows
immediately returns a non-zero handle, which becomes the active handle. -/
theorem C5_close_safety (s : my_osd_interface) (id : Nat) :
    (id ≠ s.m_current_stream_id → (sound_stream_close id s).state = s)
      ∧ (sound_stream_close s.m_current_stream_id s).state.m_current_stream_id = 0
      ∧ (sound_stream_close s.m_current_stream_id s).state.m_next_stream_id
          = s.m_next_stream_id
      ∧ (s.m_next_stream_id ≠ 0 → ∀ (node : Nat) (name : String) (rate : Nat),
          (sound_stream_sink_open node name rate
              (sound_stream_close s.m_current_stream_id s).state).ret ≠ 0
            ∧ (sound_stream_sink_open node name rate
                (sound_stream_close s.m_current_stream_id s).state).state.m_current_stream_id
              = (sound_stream_sink_open node name rate
                  (sound_stream_close s.m_current_stream_id s).state).ret) := by
  refine ⟨?_, ?_, ?_, ?_⟩
  · intro h
    simp [sound_stream_close, h]
  · simp [sound_stream_close]
  · simp [sound_stream_close]
  · intro h node name rate
    simp [sound_stream_close, sound_stream_sink_open, h]

/-- Witness of C5 (amended): stream 1 is open and the counter stands at 2; handle 7 is
foreign. -/
theorem C5_close_safety_witness :
    (7 ≠ playing.m_current_stream_id ∧ playing.m_next_stream_id ≠ 0)
      ∧ (sound_stream_close 7 playing).state = playing
      ∧ (sound_stream_sink_open 1 "myosdsound" 0
          (sound_stream_close playing.m_current_stream_id playing).state).ret ≠ 0 :=
  ⟨by decide, (C5_close_safety playing 7).1 (by decide),
    ((C5_close_safety playing 7).2.2.2 (by decide) 1 "myosdsound" 0).1⟩

/-- C6. Disabled sink never touches the backend: if `sound_init` runs with a configured
rate of 0 or with sound option "none", it returns without calling the `sound_init`
callback, and every following sequence of `sound_stream_sink_open`,
`sound_stream_close`, `sound_stream_sink_update`, `sound_get_information` and
`sound_exit` calls runs to its end without any callback call. -/
theorem C6_disabled_silent (opts : Options) (s0 : my_osd_interface)
    (h0 : opts.sample_rate = 0 ∨ opts.sound = "none") :
    ∃ o1, sound_init opts s0 = some o1 ∧ o1.calls = []
      ∧ ∀ ops : List Op, (∀ op ∈ ops, Op.stream_or_exit op) →
          ∃ r, run ops o1.state = some r ∧ r.calls = [] := by
  have hz : effective_rate opts = 0 := (effective_rate_eq_zero opts).2 h0.symm
  obtain ⟨o1, ho1⟩ := sound_init_returns opts s0 (Or.inl hz)
  have hs := sound_init_state opts s0 o1 ho1
  have hrate : o1.state.m_sample_rate = 0 := by rw [hs]; exact hz
  refine ⟨o1, ho1, ?_, ?_⟩
  · unfold sound_init at ho1
    simp only [hz, ne_eq, not_true_eq_false, if_false] at ho1
    cases ho1
    rfl
  · intro ops hops
    obtain ⟨hkeep, hret⟩ :=
      run_not_init ops o1.state (fun op hop => stream_or_exit_not_init op (hops op hop))
    obtain ⟨r, hr⟩ := hret (Or.inl hrate)
    exact ⟨r, hr, (hkeep r hr).2.2 hrate⟩

/-- Witness of C6: `-sound none` with host callbacks in place. -/
theorem C6_disabled_silent_witness :
    (opts_none.sample_rate = 0 ∨ opts_none.sound = "none")
      ∧ ∃ o1, sound_init opts_none hosted = some o1 ∧ o1.calls = []
          ∧ ∀ ops : List Op, (∀ op ∈ ops, Op.stream_or_exit op) →
              ∃ r, run ops o1.state = some r ∧ r.calls = [] :=
  ⟨by decide, C6_disabled_silent opts_none hosted (by decide)⟩

/-- C7. Effective rate and `no_sound`: whenever the `sound_init` callback in force is
present or the effective rate is 0, `sound_init` with configured rate `r` and sound
option `s` returns; the stored rate is then 0 if `s` is "none" and `r` otherwise;
`no_sound()` returns true exactly when the stored rate is 0, that is exactly when `s` is
"none" or `r = 0`; and no later sequence of `sound_stream_sink_open`,
`sound_stream_close`, `sound_stream_sink_update`, `sound_get_information` and
`sound_exit` calls changes what `no_sound()` returns (such a sequence runs to its end
whenever the rate is 0 or the `sound_exit` callback is present). -/
theorem C7_effective_rate (opts : Options) (s0 : my_osd_interface)
    (hcb : effective_rate opts = 0 ∨ (install_defaults s0.m_callbacks).sound_init ≠ none) :
    ∃ o1, sound_init opts s0 = some o1
      ∧ o1.state.m_sample_rate = (if opts.sound = "none" then 0 else opts.sample_rate)
      ∧ ((no_sound o1.state).ret = true ↔ o1.state.m_sample_rate = 0)
      ∧ ((no_sound o1.state).ret = true ↔ (opts.sound = "none" ∨ opts.sample_rate = 0))
      ∧ ∀ ops : List Op, (∀ op ∈ ops, Op.stream_or_exit op) →
          (∀ r, run ops o1.state = some r →
              (no_sound r.state).ret = (no_sound o1.state).ret)
            ∧ ((o1.state.m_sample_rate = 0 ∨ o1.state.m_callbacks.sound_exit ≠ none) →
                ∃ r, run ops o1.state = some r) := by
  obtain ⟨o1, ho1⟩ := sound_init_returns opts s0 hcb
  have hs := sound_init_state opts s0 o1 ho1
  have hrate : o1.state.m_sample_rate = effective_rate opts := by rw [hs]
  refine ⟨o1, ho1, hrate, ?_, ?_, ?_⟩
  · simp [no_sound]
  · rw [← effective_rate_eq_zero, ← hrate]
    simp [no_sound]
  · intro ops hops
    obtain ⟨hkeep, hret⟩ :=
      run_not_init ops o1.state (fun op hop => stream_or_exit_not_init op (hops op hop))
    refine ⟨?_, hret⟩
    intro r hr
    simp only [no_sound, (hkeep r hr).1]

/-- Witness of C7: 44100 Hz with host callbacks in place. -/
theorem C7_effective_rate_witness :
    (effective_rate opts_44100 = 0 ∨ (install_defaults hosted.m_callbacks).sound_init ≠ none)
      ∧ ∃ o1, sound_init opts_44100 hosted = some o1
          ∧ o1.state.m_sample_rate
              = (if opts_44100.sound = "none" then 0 else opts_44100.sample_rate)
          ∧ ((no_sound o1.state).ret = true ↔ o1.state.m_sample_rate = 0)
          ∧ ((no_sound o1.state).ret = true
              ↔ (opts_44100.sound = "none" ∨ opts_44100.sample_rate = 0))
          ∧ ∀ ops : List Op, (∀ op ∈ ops, Op.stream_or_exit op) →
              (∀ r, run ops o1.state = some r →
                  (no_sound r.state).ret = (no_sound o1.state).ret)
                ∧ ((o1.state.m_sample_rate = 0 ∨ o1.state.m_callbacks.sound_exit ≠ none) →
                    ∃ r, run ops o1.state = some r) :=
  ⟨by decide, C7_effective_rate opts_44100 hosted (by decide)⟩

/-- C8, as stated, fails: at 44100 Hz the host's `sound_init` callback is called once
with second argument 1 (the `stereo` flag), and never with second argument 2. -/
theorem C8_counterexample :
    ∃ o, sound_init opts_44100 hosted = some o
      ∧ o.calls = [Call.init (Fn.host 0) 44100 1]
      ∧ Call.init (Fn.host 0) 44100 2 ∉ o.calls :=
  ⟨{ state := { ready with m_callbacks := hosted.m_callbacks },
     calls := [Call.init (Fn.host 0) 44100 1], ret := () }, by decide, rfl, by decide⟩

/-- C8, amended. `sound_init` calls the `sound_init` callback in force exactly once when
the effective rate is non-zero, passing the effective rate as first argument and the
stereo flag 1 as second argument, and calls it zero times when the effective rate is 0;
in both cases it makes no other callback call. -/
theorem C8_backend_init (opts : Options) (s0 : my_osd_interface) :
    (effective_rate opts = 0 → ∃ o, sound_init opts s0 = some o ∧ o.calls = [])
      ∧ (effective_rate opts ≠ 0 →
          ∀ f, (install_defaults s0.m_callbacks).sound_init = some f →
            ∃ o, sound_init opts s0 = some o
              ∧ o.calls = [Call.init f (effective_rate opts) 1]) := by
  refine ⟨?_, ?_⟩
  · intro hz
    obtain ⟨o, ho⟩ := sound_init_returns opts s0 (Or.inl hz)
    refine ⟨o, ho, ?_⟩
    unfold sound_init at ho
    simp only [hz, ne_eq, not_true_eq_false, if_false] at ho
    cases ho
    rfl
  · intro hnz f hf
    obtain ⟨o, ho⟩ := sound_init_returns opts s0 (Or.inr (by simp [hf]))
    refine ⟨o, ho, ?_⟩
    unfold sound_init at ho
    simp only [hnz, ne_eq, not_false_eq_true, if_true, hf] at ho
    cases ho
    rfl

/-- Witness of C8 (amended): 44100 Hz reaches the host callback, `-sound none` reaches
nobody. -/
theorem C8_backend_init_witness :
    (effective_rate opts_none = 0 ∧ effective_rate opts_44100 ≠ 0
        ∧ (install_defaults hosted.m_callbacks).sound_init = some (Fn.host 0))
      ∧ (∃ o, sound_init opts_none hosted = some o ∧ o.calls = [])
      ∧ (∃ o, sound_init opts_44100 hosted = some o
          ∧ o.calls = [Call.init (Fn.host 0) (effective_rate opts_44100) 1]) :=
  ⟨by decide, (C8_backend_init opts_none hosted).1 (by decide),
    (C8_backend_init opts_44100 hosted).2 (by decide) (Fn.host 0) (by decide)⟩

/-- C9. Topology stream list: in every state the stream list returned by
`sound_get_information` has exactly one entry when the active handle is non-zero and is
empty when it is 0; the entry carries the active handle as id and, as node, the id 1 of
the single reported node. -/
theorem C9_stream_list (s : my_osd_interface) :
    (sound_get_information s).ret.m_streams
        = (if s.m_current_stream_id ≠ 0
            then [{ m_id := s.m_current_stream_id, m_node := 1 }] else [])
      ∧ (sound_get_information s).ret.m_streams.length
          = (if s.m_current_stream_id ≠ 0 then 1 else 0)
      ∧ (sound_get_information s).ret.m_nodes.map (fun nd => nd.m_id) = [1] := by
  unfold sound_get_information
  by_cases h : s.m_current_stream_id = 0
  · simp [h, the_node]
  · simp [h, the_node]

/-- C10. Topology stability and purity: in every state `sound_get_information` leaves the
object unchanged, calls no callback, and reports generation 1, default sink 1, default
source 0 and exactly one node, with id 1, 2 sinks, 0 sources, port names "L", "R" and
port positions front-left, front-right in that order; the node list is the same in every
state. -/
theorem C10_topology (s : my_osd_interface) :
    (sound_get_information s).state = s
      ∧ (sound_get_information s).calls = []
      ∧ (sound_get_information s).ret.m_generation = 1
      ∧ (sound_get_information s).ret.m_default_sink = 1
      ∧ (sound_get_information s).ret.m_default_source = 0
      ∧ (sound_get_information s).ret.m_nodes
          = [{ m_name := "myosdsound"
               m_display_name := "myosd sound"
               m_id := 1
               m_rate := { m_default_rate := 0, m_min_rate := 0, m_max_rate := 0 }
               m_sinks := 2
               m_sources := 0
               m_port_names := ["L", "R"]
               m_port_positions := [channel_position.FL, channel_position.FR] }]
      ∧ ∀ s1 : my_osd_interface,
          (sound_get_information s1).ret.m_nodes = (sound_get_information s).ret.m_nodes := by
  have hnodes : ∀ x : my_osd_interface, (sound_get_information x).ret.m_nodes = [the_node] := by
    intro x
    unfold sound_get_information
    by_cases h : x.m_current_stream_id = 0 <;> simp [h]
  have hrest : (sound_get_information s).ret.m_generation = 1
      ∧ (sound_get_information s).ret.m_default_sink = 1
      ∧ (sound_get_information s).ret.m_default_source = 0 := by
    unfold sound_get_information
    by_cases h : s.m_current_stream_id = 0 <;> simp [h]
  refine ⟨rfl, rfl, hrest.1, hrest.2.1, hrest.2.2, ?_, ?_⟩
  · rw [hnodes s]
    rfl
  · intro s1
    rw [hnodes s1, hnodes s]

/-- C11. Teardown: in every prior state `sound_exit` calls the `sound_exit` callback
exactly once when the sample rate is non-zero (the callback being present) and zero
times when it is 0, leaves the active handle equal to 0 and every other member as it
was, and is idempotent on the object: a second `sound_exit` returns and leaves the
object as the first one left it. -/
theorem C11_teardown (s : my_osd_interface) :
    (s.m_sample_rate = 0 →
        sound_exit s
          = some { state := { s with m_current_stream_id := 0 }, calls := [], ret := () })
      ∧ (s.m_sample_rate ≠ 0 → ∀ f, s.m_callbacks.sound_exit = some f →
          sound_exit s
            = some { state := { s with m_current_stream_id := 0 }, calls := [Call.exit f],
                     ret := () })
      ∧ (∀ o1, sound_exit s = some o1 →
          o1.state.m_current_stream_id = 0
            ∧ ∃ o2, sound_exit o1.state = some o2 ∧ o2.state = o1.state) := by
  refine ⟨?_, ?_, ?_⟩
  · intro h
    simp [sound_exit, h]
  · intro h f hf
    simp [sound_exit, h, hf]
  · intro o1 h1
    unfold sound_exit at h1
    by_cases hr : s.m_sample_rate = 0
    · simp only [hr, ne_eq, not_true_eq_false, if_false, Option.some.injEq] at h1
      subst h1
      exact ⟨rfl, _, by simp [sound_exit, hr], rfl⟩
    · cases hcb : s.m_callbacks.sound_exit with
      | none => simp [hr, hcb] at h1
      | some f =>
        simp only [hr, hcb, ne_eq, not_false_eq_true, if_true, Option.some.injEq] at h1
        subst h1
        exact ⟨rfl, _, by simp [sound_exit, hr, hcb], rfl⟩

/-- Witness of C11: teardown of the object `playing` (44100 Hz, stream 1 open) and of
the object `fresh` (rate 0). -/
theorem C11_teardown_witness :
    (fresh.m_sample_rate = 0 ∧ playing.m_sample_rate ≠ 0
        ∧ playing.m_callbacks.sound_exit = some (Fn.host 2))
      ∧ sound_exit fresh
          = some { state := { fresh with m_current_stream_id := 0 }, calls := [], ret := () }
      ∧ sound_exit playing
          = some { state := { playing with m_current_stream_id := 0 },
                   calls := [Call.exit (Fn.host 2)], ret := () }
      ∧ ({ playing with m_current_stream_id := 0 } : my_osd_interface).m_current_stream_id = 0 :=
  ⟨by decide, (C11_teardown fresh).1 (by decide),
    (C11_teardown playing).2.1 (by decide) (Fn.host 2) (by decide),
    ((C11_teardown playing).2.2
      { state := { playing with m_current_stream_id := 0 },
        calls := [Call.exit (Fn.host 2)], ret := () } (by decide)).1⟩

/-- C12, as stated, fails: a host that supplied `sound_init` and `sound_exit` but no
`sound_play` did supply capabilities, yet `sound_init` installs the no-op triple and
the host's callbacks do not stay unchanged. -/
theorem C12_counterexample :
    ∃ o, sound_init opts_44100 partial_host = some o
      ∧ ¬ partial_host.m_callbacks.all_absent
      ∧ o.state.m_callbacks = noop_callbacks
      ∧ o.state.m_callbacks ≠ partial_host.m_callbacks :=
  ⟨{ state := ready, calls := [Call.init Fn.myosd_sound_init 44100 1], ret := () },
    by decide, by decide, by decide, by decide⟩

/-- C12, amended. `sound_init` installs the no-op callback triple exactly when the
`sound_play` callback is absent, and then replaces all three callbacks; when
`sound_play` is present the callbacks are left unchanged; so after `sound_init` a
triple handed over by the host is never a mix of host-supplied and no-op callbacks.
(`sound_init` returns whenever the `sound_init` callback in force is present or the
effective rate is 0.) -/
theorem C12_substitution (opts : Options) (s0 : my_osd_interface)
    (hcb : effective_rate opts = 0 ∨ (install_defaults s0.m_callbacks).sound_init ≠ none) :
    ∃ o1, sound_init opts s0 = some o1
      ∧ (s0.m_callbacks.sound_play = none → o1.state.m_callbacks = noop_callbacks)
      ∧ (s0.m_callbacks.sound_play ≠ none → o1.state.m_callbacks = s0.m_callbacks)
      ∧ (s0.m_callbacks.from_host → ¬ o1.state.m_callbacks.mixed) := by
  obtain ⟨o1, ho1⟩ := sound_init_returns opts s0 hcb
  have hs : o1.state.m_callbacks = install_defaults s0.m_callbacks := by
    rw [sound_init_state opts s0 o1 ho1]
  refine ⟨o1, ho1, ?_, ?_, ?_⟩
  · intro h
    rw [hs]
    simp [install_defaults, h, noop_callbacks]
  · intro h
    rw [hs]
    simp [install_defaults, h]
  · intro hh
    rw [hs]
    by_cases h : s0.m_callbacks.sound_play = none
    · simp [install_defaults, h, Callbacks.mixed, points_to_host, Fn.is_noop]
    · obtain ⟨a, b, c⟩ := hh
      simp [install_defaults, h, Callbacks.mixed, a, b, c]

/-- Witness of C12 (amended): a host with all three callbacks keeps them. -/
theorem C12_substitution_witness :
    (effective_rate opts_44100 = 0 ∨ (install_defaults hosted.m_callbacks).sound_init ≠ none)
      ∧ ∃ o1, sound_init opts_44100 hosted = some o1
          ∧ (hosted.m_callbacks.sound_play = none → o1.state.m_callbacks = noop_callbacks)
          ∧ (hosted.m_callbacks.sound_play ≠ none → o1.state.m_callbacks = hosted.m_callbacks)
          ∧ (hosted.m_callbacks.from_host → ¬ o1.state.m_callbacks.mixed) :=
  ⟨by decide, C12_substitution opts_44100 hosted (by decide)⟩

/-- C13, as stated, fails: `sound_init` sets the counter back to 1, so the open after a
second `sound_init` returns handle 1 again. -/
theorem C13_counterexample :
    (run [Op.sound_init opts_44100, Op.sound_stream_sink_open 1 "myosdsound" 0,
          Op.sound_stream_close 1, Op.sound_exit, Op.sound_init opts_44100,
          Op.sound_stream_sink_open 1 "myosdsound" 0] fresh).map (fun r => handles r.ret)
      = some [1, 1] := by
  decide

/-- C13, amended. After a `sound_init`, in every sequence of `sound_exit`,
`sound_stream_sink_open`, `sound_stream_close`, `sound_stream_sink_update` and
`sound_get_information` calls (no further `sound_init`) in which at most `2^32 - 1`
opens succeed, no two successful opens return the same non-zero handle: the `k`-th
successful open returns `k`.  (`sound_init` returns whenever its callback is present
or the effective rate is 0; the sequence runs to its end whenever the rate is 0 or the
`sound_exit` callback is present.) -/
theorem C13_no_reuse (opts : Options) (s0 : my_osd_interface)
    (hcb : effective_rate opts = 0 ∨ (install_defaults s0.m_callbacks).sound_init ≠ none) :
    ∃ o1, sound_init opts s0 = some o1
      ∧ ∀ ops : List Op, (∀ op ∈ ops, Op.stream_or_exit op) →
          ((o1.state.m_sample_rate = 0 ∨ o1.state.m_callbacks.sound_exit ≠ none) →
              ∃ r, run ops o1.state = some r)
            ∧ ∀ r, run ops o1.state = some r → successes r.ret ≤ 2 ^ 32 - 1 →
                handles r.ret = List.range' 1 (successes r.ret) ∧ (handles r.ret).Nodup := by
  obtain ⟨o1, ho1⟩ := sound_init_returns opts s0 hcb
  have hn : o1.state.m_next_stream_id = 1 := by
    rw [sound_init_state opts s0 o1 ho1]
  refine ⟨o1, ho1, ?_⟩
  intro ops hops
  have hni : ∀ op ∈ ops, Op.not_init op := fun op hop => stream_or_exit_not_init op (hops op hop)
  refine ⟨(run_not_init ops o1.state hni).2, ?_⟩
  intro r hr hk
  have hrange := run_handles_range ops o1.state 1 r hni hr hn (le_refl 1) (by omega)
  refine ⟨hrange, ?_⟩
  rw [hrange]
  exact List.nodup_range' _ _

/-- Witness of C13 (amended): 44100 Hz with host callbacks in place. -/
theorem C13_no_reuse_witness :
    (effective_rate opts_44100 = 0 ∨ (install_defaults hosted.m_callbacks).sound_init ≠ none)
      ∧ ∃ o1, sound_init opts_44100 hosted = some o1
          ∧ ∀ ops : List Op, (∀ op ∈ ops, Op.stream_or_exit op) →
              ((o1.state.m_sample_rate = 0 ∨ o1.state.m_callbacks.sound_exit ≠ none) →
                  ∃ r, run ops o1.state = some r)
                ∧ ∀ r, run ops o1.state = some r → successes r.ret ≤ 2 ^ 32 - 1 →
                    handles r.ret = List.range' 1 (successes r.ret)
                      ∧ (handles r.ret).Nodup :=
  ⟨by decide, C13_no_reuse opts_44100 hosted (by decide)⟩

/-- C14. Initialization resets stream state: from every prior state and for every
configuration (the `sound_init` callback in force being present, or the effective rate
0), `sound_init` returns with active handle 0 and counter 1; the first
`sound_stream_sink_open` after it returns 1; after `sound_stream_close 1` the next
`sound_stream_sink_open` returns 2; and a `sound_stream_sink_update` with id 1 after
that is dropped. -/
theorem C14_init_resets (opts : Options) (s0 : my_osd_interface)
    (hcb : effective_rate opts = 0 ∨ (install_defaults s0.m_callbacks).sound_init ≠ none) :
    ∃ o1, sound_init opts s0 = some o1
      ∧ o1.state.m_current_stream_id = 0 ∧ o1.state.m_next_stream_id = 1
      ∧ ∀ (node : Nat) (name : String) (rate : Nat) (node2 : Nat) (name2 : String)
          (rate2 : Nat) (buffer : Ptr) (n : Int),
          (sound_stream_sink_open node name rate o1.state).ret = 1
            ∧ (sound_stream_sink_open node2 name2 rate2
                (sound_stream_close 1
                  (sound_stream_sink_open node name rate o1.state).state).state).ret = 2
            ∧ (sound_stream_sink_update 1 buffer n
                (sound_stream_sink_open node2 name2 rate2
                  (sound_stream_close 1
                    (sound_stream_sink_open node name rate o1.state).state).state).state).calls
                = [] := by
  obtain ⟨o1, ho1⟩ := sound_init_returns opts s0 hcb
  have hs := sound_init_state opts s0 o1 ho1
  refine ⟨o1, ho1, by rw [hs], by rw [hs], ?_⟩
  intro node name rate node2 name2 rate2 buffer n
  rw [hs]
  refine ⟨by simp [sound_stream_sink_open], ?_, ?_⟩
  · simp [sound_stream_sink_open, sound_stream_close, UINT32_MOD]
  · simp [sound_stream_sink_update, sound_stream_sink_open, sound_stream_close, UINT32_MOD]

/-- Witness of C14: 44100 Hz with host callbacks in place. -/
theorem C14_init_resets_witness :
    (effective_rate opts_44100 = 0 ∨ (install_defaults hosted.m_callbacks).sound_init ≠ none)
      ∧ ∃ o1, sound_init opts_44100 hosted = some o1
          ∧ o1.state.m_current_stream_id = 0 ∧ o1.state.m_next_stream_id = 1
          ∧ ∀ (node : Nat) (name : String) (rate : Nat) (node2 : Nat) (name2 : String)
              (rate2 : Nat) (buffer : Ptr) (n : Int),
              (sound_stream_sink_open node name rate o1.state).ret = 1
                ∧ (sound_stream_sink_open node2 name2 rate2
                    (sound_stream_close 1
                      (sound_stream_sink_open node name rate o1.state).state).state).ret = 2
                ∧ (sound_stream_sink_update 1 buffer n
                    (sound_stream_sink_open node2 name2 rate2
                      (sound_stream_close 1
                        (sound_stream_sink_open node name rate
                          o1.state).state).state).state).calls
                    = [] :=
  ⟨by decide, C14_init_resets opts_44100 hosted (by decide)⟩

/-- C15. Admission is independent of configuration and arguments: for two states that
agree on the active handle and on the counter (whatever their rates and callbacks) and
for any two argument triples, `sound_stream_sink_open` returns the same handle and
leaves the same active handle and counter; in particular after `sound_init` with
effective rate 0 the first open returns 1. -/
theorem C15_admission (s1 s2 : my_osd_interface) (node1 : Nat) (name1 : String)
    (rate1 : Nat) (node2 : Nat) (name2 : String) (rate2 : Nat) (opts : Options)
    (s0 : my_osd_interface) :
    (s1.m_current_stream_id = s2.m_current_stream_id →
        s1.m_next_stream_id = s2.m_next_stream_id →
        (sound_stream_sink_open node1 name1 rate1 s1).ret
            = (sound_stream_sink_open node2 name2 rate2 s2).ret
          ∧ (sound_stream_sink_open node1 name1 rate1 s1).state.m_current_stream_id
              = (sound_stream_sink_open node2 name2 rate2 s2).state.m_current_stream_id
          ∧ (sound_stream_sink_open node1 name1 rate1 s1).state.m_next_stream_id
              = (sound_stream_sink_open node2 name2 rate2 s2).state.m_next_stream_id)
      ∧ (effective_rate opts = 0 →
          ∃ o1, sound_init opts s0 = some o1
            ∧ (sound_stream_sink_open node1 name1 rate1 o1.state).ret = 1) := by
  refine ⟨?_, ?_⟩
  · intro hc hn
    unfold sound_stream_sink_open
    by_cases h : s2.m_current_stream_id = 0
    · simp [hc, hn, h]
    · simp [hc, hn, h]
  · intro hz
    obtain ⟨o1, ho1⟩ := sound_init_returns opts s0 (Or.inl hz)
    refine ⟨o1, ho1, ?_⟩
    rw [sound_init_state opts s0 o1 ho1]
    simp [sound_stream_sink_open]

/-- Witness of C15: the object `ready` (44100 Hz, no-op callbacks) against the same
object with rate 0 and host callbacks, opened with different arguments. -/
theorem C15_admission_witness :
    (ready.m_current_stream_id
          = ({ hosted with m_next_stream_id := 1 } : my_osd_interface).m_current_stream_id
        ∧ ready.m_next_stream_id
          = ({ hosted with m_next_stream_id := 1 } : my_osd_interface).m_next_stream_id
        ∧ effective_rate opts_none = 0)
      ∧ (sound_stream_sink_open 1 "myosdsound" 0 ready).ret
          = (sound_stream_sink_open 9 "other" 48000 { hosted with m_next_stream_id := 1 }).ret
      ∧ ∃ o1, sound_init opts_none fresh = some o1
          ∧ (sound_stream_sink_open 1 "myosdsound" 0 o1.state).ret = 1 :=
  ⟨by decide,
    ((C15_admission ready { hosted with m_next_stream_id := 1 } 1 "myosdsound" 0 9 "other"
      48000 opts_none fresh).1 (by decide) (by decide)).1,
    (C15_admission ready { hosted with m_next_stream_id := 1 } 1 "myosdsound" 0 9 "other"
      48000 opts_none fresh).2 (by decide)⟩

/-- C16, as stated, fails: with stream 1 of the object `playing` closed, no stream is
open (the active handle is 0), and `sound_stream_sink_update` with id 0 calls the
host's `sound_play` once, with the buffer and 1024 bytes. -/
theorem C16_counterexample :
    (sound_stream_close 1 playing).state.m_current_stream_id = 0
      ∧ (sound_stream_sink_update 0 4096 256 (sound_stream_close 1 playing).state).calls
          = [Call.play (Fn.host 1) 4096 1024]
      ∧ play_count
          (sound_stream_sink_update 0 4096 256 (sound_stream_close 1 playing).state).calls
          = 1 := by
  decide

/-- C16, amended. In every state whose active handle is 0, `sound_stream_sink_update`
calls `sound_play` zero times (and makes no other call) for every non-zero id, every
buffer and every frame count; with id 0, which equals the active handle there, it
follows the equality guard and forwards exactly when the sample rate is non-zero, the
`sound_play` callback is present and the buffer is non-null. -/
theorem C16_no_stream (s : my_osd_interface) (h0 : s.m_current_stream_id = 0)
    (id : Nat) (buffer : Ptr) (samples_this_frame : Int) :
    (id ≠ 0 →
        (sound_stream_sink_update id buffer samples_this_frame s).calls = []
          ∧ play_count (sound_stream_sink_update id buffer samples_this_frame s).calls = 0)
      ∧ play_count (sound_stream_sink_update 0 buffer samples_this_frame s).calls
          = (if s.m_sample_rate ≠ 0 ∧ s.m_callbacks.sound_play ≠ none ∧ buffer ≠ NULL
              then 1 else 0) := by
  refine ⟨?_, ?_⟩
  · intro hid
    obtain ⟨_, h | h⟩ := sound_stream_sink_update_cases id buffer samples_this_frame s
    · rw [h.2]
      exact ⟨rfl, rfl⟩
    · obtain ⟨_, _, d, _⟩ := h
      rw [h0] at d
      exact absurd d hid
  · obtain ⟨_, h | h⟩ := sound_stream_sink_update_cases 0 buffer samples_this_frame s
    · obtain ⟨hg, hc⟩ := h
      have hn : ¬ (s.m_sample_rate ≠ 0 ∧ s.m_callbacks.sound_play ≠ none ∧ buffer ≠ NULL) := by
        rintro ⟨a, b, c⟩
        rcases hg with g | g | g | g
        · exact a g
        · exact b g
        · exact c g
        · exact g h0.symm
      rw [hc, if_neg hn]
      rfl
    · obtain ⟨a, c, _, f, hf, hc⟩ := h
      have hy : s.m_sample_rate ≠ 0 ∧ s.m_callbacks.sound_play ≠ none ∧ buffer ≠ NULL :=
        ⟨a, by simp [hf], c⟩
      rw [hc, if_pos hy]
      rfl

/-- Witness of C16 (amended): with stream 1 of the object `playing` closed, an update
for the stale handle 1 is dropped. -/
theorem C16_no_stream_witness :
    ((sound_stream_close 1 playing).state.m_current_stream_id = 0 ∧ (1 : Nat) ≠ 0)
      ∧ (sound_stream_sink_update 1 4096 256 (sound_stream_close 1 playing).state).calls = []
      ∧ play_count
          (sound_stream_sink_update 1 4096 256 (sound_stream_close 1 playing).state).calls
          = 0 :=
  ⟨by decide,
    (C16_no_stream (sound_stream_close 1 playing).state (by decide) 1 4096 256).1 (by decide)⟩

/-- C17. A rejected open is atomic: called while the active handle is non-zero,
`sound_stream_sink_open` returns 0, calls nothing back and leaves the whole object
unchanged, the counter included; so every sequence of calls that follows, and with it
the next successful open, gives what it would have given without the rejected
attempt. -/
theorem C17_rejected_open (s : my_osd_interface) (h : s.m_current_stream_id ≠ 0)
    (node : Nat) (name : String) (rate : Nat) :
    (sound_stream_sink_open node name rate s).ret = 0
      ∧ (sound_stream_sink_open node name rate s).state = s
      ∧ (sound_stream_sink_open node name rate s).calls = []
      ∧ (sound_stream_sink_open node name rate s).state.m_next_stream_id
          = s.m_next_stream_id
      ∧ ∀ ops : List Op, run ops (sound_stream_sink_open node name rate s).state = run ops s := by
  have hs : (sound_stream_sink_open node name rate s).state = s := by
    simp [sound_stream_sink_open, h]
  refine ⟨by simp [sound_stream_sink_open, h], hs, by simp [sound_stream_sink_open, h],
    by rw [hs], ?_⟩
  intro ops
  rw [hs]

/-- Witness of C17: a second open while stream 1 of the object `playing` is open. -/
theorem C17_rejected_open_witness :
    playing.m_current_stream_id ≠ 0
      ∧ (sound_stream_sink_open 1 "myosdsound" 0 playing).ret = 0
      ∧ (sound_stream_sink_open 1 "myosdsound" 0 playing).state = playing
      ∧ (sound_stream_sink_open 1 "myosdsound" 0 playing).calls = []
      ∧ (sound_stream_sink_open 1 "myosdsound" 0 playing).state.m_next_stream_id
          = playing.m_next_stream_id
      ∧ ∀ ops : List Op,
          run ops (sound_stream_sink_open 1 "myosdsound" 0 playing).state = run ops playing :=
  ⟨by decide, C17_rejected_open playing (by decide) 1 "myosdsound" 0⟩

/-- C18. Reachable-state invariant: in every state reached from `sound_init` by a
sequence of `sound_stream_sink_open`, `sound_stream_close`, `sound_stream_sink_update`,
`sound_get_information` and `sound_exit` calls, the active handle is 0 or the counter
equals the active handle plus 1 modulo `2^32`; and `sound_stream_close`,
`sound_stream_sink_update`, `sound_get_information` and `sound_exit` never change the
counter.  (`sound_init` returns whenever its callback is present or the effective rate
is 0; the sequence runs to its end whenever the rate is 0 or the `sound_exit` callback
is present.) -/
theorem C18_counters_linked (opts : Options) (s0 : my_osd_interface)
    (hcb : effective_rate opts = 0 ∨ (install_defaults s0.m_callbacks).sound_init ≠ none) :
    (∃ o1, sound_init opts s0 = some o1
        ∧ ∀ ops : List Op, (∀ op ∈ ops, Op.stream_or_exit op) →
            ((o1.state.m_sample_rate = 0 ∨ o1.state.m_callbacks.sound_exit ≠ none) →
                ∃ r, run ops o1.state = some r)
              ∧ ∀ r, run ops o1.state = some r →
                  r.state.m_current_stream_id = 0
                    ∨ r.state.m_next_stream_id
                        = (r.state.m_current_stream_id + 1) % 2 ^ 32)
      ∧ (∀ (s : my_osd_interface) (id : Nat),
          (sound_stream_close id s).state.m_next_stream_id = s.m_next_stream_id)
      ∧ (∀ (s : my_osd_interface) (id : Nat) (buffer : Ptr) (n : Int),
          (sound_stream_sink_update id buffer n s).state.m_next_stream_id = s.m_next_stream_id)
      ∧ (∀ s : my_osd_interface,
          (sound_get_information s).state.m_next_stream_id = s.m_next_stream_id)
      ∧ (∀ (s : my_osd_interface) (o : Outcome Unit), sound_exit s = some o →
          o.state.m_next_stream_id = s.m_next_stream_id) := by
  refine ⟨?_, ?_, ?_, ?_, ?_⟩
  · obtain ⟨o1, ho1⟩ := sound_init_returns opts s0 hcb
    have hlink : counters_linked o1.state := by
      left
      rw [sound_init_state opts s0 o1 ho1]
    refine ⟨o1, ho1, ?_⟩
    intro ops hops
    have hni : ∀ op ∈ ops, Op.not_init op :=
      fun op hop => stream_or_exit_not_init op (hops op hop)
    refine ⟨(run_not_init ops o1.state hni).2, ?_⟩
    intro r hr
    exact run_counters_linked ops o1.state r hni hr hlink
  · intro s id
    simp only [sound_stream_close]
    split <;> rfl
  · intro s id buffer n
    rw [(sound_stream_sink_update_cases id buffer n s).1]
  · intro s
    rfl
  · intro s o ho
    have hstep : step Op.sound_exit s = some (o.as (fun _ => Ret.unit)) := by
      simp [step, ho]
    rcases step_counter Op.sound_exit trivial s _ hstep with hc | hc
    · exact absurd hc.2.1 (by simp [Outcome.as])
    · exact hc.1

/-- Witness of C18: 44100 Hz with host callbacks in place. -/
theorem C18_counters_linked_witness :
    (effective_rate opts_44100 = 0 ∨ (install_defaults hosted.m_callbacks).sound_init ≠ none)
      ∧ ∃ o1, sound_init opts_44100 hosted = some o1
          ∧ ∀ ops : List Op, (∀ op ∈ ops, Op.stream_or_exit op) →
              ((o1.state.m_sample_rate = 0 ∨ o1.state.m_callbacks.sound_exit ≠ none) →
                  ∃ r, run ops o1.state = some r)
                ∧ ∀ r, run ops o1.state = some r →
                    r.state.m_current_stream_id = 0
                      ∨ r.state.m_next_stream_id
                          = (r.state.m_current_stream_id + 1) % 2 ^ 32 :=
  ⟨by decide, (C18_counters_linked opts_44100 hosted (by decide)).1⟩

/-- C19. The play capability is always present after initialization: for every callback
triple of the host (any subset absent; `sound_init` returns whenever the `sound_init`
callback in force is present or the effective rate is 0), after `sound_init` the
`sound_play` callback is non-null and stays non-null under every later sequence of
calls, so `sound_stream_sink_update` then forwards exactly when the sample rate is
non-zero, the buffer is non-null and the id equals the active handle.  (With all three
callbacks present every later sequence runs to its end.) -/
theorem C19_play_present (opts : Options) (s0 : my_osd_interface)
    (hcb : effective_rate opts = 0 ∨ (install_defaults s0.m_callbacks).sound_init ≠ none) :
    ∃ o1, sound_init opts s0 = some o1
      ∧ o1.state.m_callbacks.sound_play ≠ none
      ∧ ∀ ops : List Op,
          (o1.state.m_callbacks.complete → ∃ r, run ops o1.state = some r)
            ∧ ∀ r, run ops o1.state = some r →
                r.state.m_callbacks.sound_play ≠ none
                  ∧ ∀ (id : Nat) (buffer : Ptr) (n : Int),
                      play_count (sound_stream_sink_update id buffer n r.state).calls
                        = (if r.state.m_sample_rate ≠ 0 ∧ buffer ≠ NULL
                              ∧ id = r.state.m_current_stream_id then 1 else 0) := by
  obtain ⟨o1, ho1⟩ := sound_init_returns opts s0 hcb
  have hp : o1.state.m_callbacks.sound_play ≠ none := by
    rw [sound_init_state opts s0 o1 ho1]
    simp only [install_defaults]
    split
    · simp
    · assumption
  refine ⟨o1, ho1, hp, ?_⟩
  intro ops
  refine ⟨run_complete ops o1.state, ?_⟩
  intro r hr
  have hpr := run_play_present ops o1.state r hr hp
  refine ⟨hpr, ?_⟩
  intro id buffer n
  obtain ⟨_, h | h⟩ := sound_stream_sink_update_cases id buffer n r.state
  · obtain ⟨hg, hc⟩ := h
    have hn : ¬ (r.state.m_sample_rate ≠ 0 ∧ buffer ≠ NULL
        ∧ id = r.state.m_current_stream_id) := by
      rintro ⟨a, c, d⟩
      rcases hg with g | g | g | g
      · exact a g
      · exact hpr g
      · exact c g
      · exact g d
    rw [hc, if_neg hn]
    rfl
  · obtain ⟨a, c, d, f, _, hc⟩ := h
    rw [hc, if_pos ⟨a, c, d⟩]
    rfl

/-- Witness of C19: a host that supplied `sound_init` and `sound_exit` but no
`sound_play`. -/
theorem C19_play_present_witness :
    (effective_rate opts_44100 = 0
        ∨ (install_defaults partial_host.m_callbacks).sound_init ≠ none)
      ∧ ∃ o1, sound_init opts_44100 partial_host = some o1
          ∧ o1.state.m_callbacks.sound_play ≠ none
          ∧ ∀ ops : List Op,
              (o1.state.m_callbacks.complete → ∃ r, run ops o1.state = some r)
                ∧ ∀ r, run ops o1.state = some r →
                    r.state.m_callbacks.sound_play ≠ none
                      ∧ ∀ (id : Nat) (buffer : Ptr) (n : Int),
                          play_count (sound_stream_sink_update id buffer n r.state).calls
                            = (if r.state.m_sample_rate ≠ 0 ∧ buffer ≠ NULL
                                  ∧ id = r.state.m_current_stream_id then 1 else 0) :=
  ⟨by decide, C19_play_present opts_44100 partial_host (by decide)⟩

end MyOsd
